import Mathlib

/-!
Verification of the record-management core of the travel-agency system
(`src/record/`): the `ClientRecord` / `AirlineRecord` / `FlightRecord`
value types and their managers (`ClientManager`, `AirlineManager`,
`FlightManager`).

The Python code is shallowly embedded: dynamic Python values are the
inductive `PyVal`, Python dictionaries are association lists (`PyDict`)
with first-key-wins lookup and in-place replacement on assignment, the
`datetime` values used by flights are `PyDateTime`, file persistence is
modelled by an explicit `saveOk : Bool` oracle passed to every mutating
operation (the return value of the internal `_save_*` full-file rewrite),
and the backing file is a list of lines (`LoadLine`), each either blank,
invalid JSON, or one JSON object.
-/

set_option autoImplicit false

/-- Dynamic Python values occurring in the record layer: `None`,
integers and strings. -/
inductive PyVal where
  | none : PyVal
  | int (n : Int) : PyVal
  | str (s : String) : PyVal
  deriving DecidableEq, Repr

/-- Python truthiness for the values of `PyVal`: `None`, `0` and `""`
are falsy, everything else is truthy. -/
def PyVal.truthy : PyVal → Bool
  | .none => false
  | .int n => n != 0
  | .str s => !s.isEmpty

/-- A Python dictionary with string keys, as an association list in
insertion order (Python dictionaries preserve insertion order). -/
abbrev PyDict := List (String × PyVal)

/-- `d.get(k)` on a dictionary: the value at the first matching key. -/
def dget : PyDict → String → Option PyVal
  | [], _ => Option.none
  | (k2, v) :: rest, k => if k2 == k then some v else dget rest k

/-- `k in d` on a dictionary. -/
def dmem : PyDict → String → Bool
  | [], _ => false
  | (k2, _) :: rest, k => k2 == k || dmem rest k

/-- Replace the value stored at key `k` (all occurrences; a Python
dictionary has at most one). -/
def dreplace : PyDict → String → PyVal → PyDict
  | [], _, _ => []
  | (k2, v2) :: rest, k, v =>
    if k2 == k then (k, v) :: dreplace rest k v
    else (k2, v2) :: dreplace rest k v

/-- `d[k] = v` on a dictionary: replace in place when the key exists,
append at the end otherwise. -/
def dset (d : PyDict) (k : String) (v : PyVal) : PyDict :=
  if dmem d k then dreplace d k v else d ++ [(k, v)]

/-- Interpret a list of characters as a decimal number, as Python
`int()` does on a plain digit string (`Option.none` on any non-digit or
the empty string). -/
def digitsToNat : List Char → Option Nat
  | [] => Option.none
  | l =>
    if l.all Char.isDigit then
      some (l.foldl (fun acc c => acc * 10 + (c.toNat - 48)) 0)
    else Option.none

/-- Model of the Python builtin `int(s)` on a string: an optional sign
followed by decimal digits; anything else raises `ValueError`, modelled
as `Option.none`. -/
def pyIntOfStr (s : String) : Option Int :=
  match s.data with
  | '-' :: rest => (digitsToNat rest).map (fun n => -(n : Int))
  | '+' :: rest => (digitsToNat rest).map (fun n => (n : Int))
  | l => (digitsToNat l).map (fun n => (n : Int))

/-- `isPrefixListC a b` is true when `a` is a prefix of `b`. -/
def isPrefixListC : List Char → List Char → Bool
  | [], _ => true
  | _ :: _, [] => false
  | a :: as, b :: bs => a == b && isPrefixListC as bs

/-- `containsSub hay needle`: the Python substring test
`needle in hay` on character lists. -/
def containsSub : List Char → List Char → Bool
  | [], needle => needle.isEmpty
  | c :: t, needle => isPrefixListC needle (c :: t) || containsSub t needle

/-- `s.lower()` (character-wise, as for the ASCII data the repository
handles). -/
def pyLower (s : String) : String :=
  String.mk (s.data.map Char.toLower)

/-- Case-insensitive substring containment,
`needle.lower() in hay.lower()`. -/
def strContainsCI (hay needle : String) : Bool :=
  containsSub (pyLower hay).data (pyLower needle).data

/-- Model of the Python `datetime.datetime` values used by flight
records: year, month, day, hour, minute, second (microseconds, which no
claim touches, are not modelled). -/
structure PyDateTime where
  year : Nat
  month : Nat
  day : Nat
  hour : Nat
  minute : Nat
  second : Nat
  deriving DecidableEq, Repr

/-- Field ranges enforced by the `datetime` constructor (day-per-month
subtleties are abstracted to `day <= 31`). -/
def PyDateTime.validB (d : PyDateTime) : Bool :=
  1 <= d.year && d.year <= 9999 && 1 <= d.month && d.month <= 12 &&
  1 <= d.day && d.day <= 31 && d.hour <= 23 && d.minute <= 59 &&
  d.second <= 59

/-- Two zero-padded decimal digits, as in `datetime.isoformat`. -/
def pad2 (n : Nat) : List Char :=
  [Nat.digitChar (n / 10), Nat.digitChar (n % 10)]

/-- Four zero-padded decimal digits. -/
def pad4 (n : Nat) : List Char :=
  pad2 (n / 100) ++ pad2 (n % 100)

/-- `datetime.isoformat()` as a character list:
`YYYY-MM-DDTHH:MM:SS` (seconds always present, zero microseconds
omitted, exactly as Python prints them). -/
def PyDateTime.isoChars (d : PyDateTime) : List Char :=
  pad4 d.year ++ '-' :: pad2 d.month ++ '-' :: pad2 d.day ++
  'T' :: pad2 d.hour ++ ':' :: pad2 d.minute ++ ':' :: pad2 d.second

/-- `datetime.isoformat()` as a string. -/
def PyDateTime.isoStr (d : PyDateTime) : String :=
  String.mk d.isoChars

/-- Parse two decimal digits. -/
def parse2 (a b : Char) : Option Nat :=
  if a.isDigit && b.isDigit then some ((a.toNat - 48) * 10 + (b.toNat - 48))
  else Option.none

/-- Parse four decimal digits. -/
def parse4 (a b c d : Char) : Option Nat :=
  match parse2 a b, parse2 c d with
  | some hi, some lo => some (hi * 100 + lo)
  | _, _ => Option.none

/-- Assemble a parsed date-time, checking the constructor ranges
(`datetime.fromisoformat` rejects out-of-range components). -/
def mkDateTime? (y mo d h mi s : Nat) : Option PyDateTime :=
  let dt : PyDateTime := ⟨y, mo, d, h, mi, s⟩
  if dt.validB then some dt else Option.none

/-- `datetime.fromisoformat` on a character list: accepts
`YYYY-MM-DD`, `YYYY-MM-DDTHH:MM` and `YYYY-MM-DDTHH:MM:SS`
(the forms the repository produces and the spec discusses); anything
else raises `ValueError`, modelled as `Option.none`. -/
def fromIsoChars : List Char → Option PyDateTime
  | y1 :: y2 :: y3 :: y4 :: c1 :: a1 :: a2 :: c2 :: b1 :: b2 :: rest =>
    if c1 == '-' && c2 == '-' then
      match parse4 y1 y2 y3 y4, parse2 a1 a2, parse2 b1 b2 with
      | some y, some mo, some d =>
        match rest with
        | [] => mkDateTime? y mo d 0 0 0
        | c3 :: h1 :: h2 :: c4 :: m1 :: m2 :: rest2 =>
          if c3 == 'T' && c4 == ':' then
            match parse2 h1 h2, parse2 m1 m2 with
            | some h, some mi =>
              match rest2 with
              | [] => mkDateTime? y mo d h mi 0
              | [c5, s1, s2] =>
                if c5 == ':' then
                  match parse2 s1 s2 with
                  | some s => mkDateTime? y mo d h mi s
                  | Option.none => Option.none
                else Option.none
              | _ => Option.none
            | _, _ => Option.none
          else Option.none
        | _ => Option.none
      | _, _, _ => Option.none
    else Option.none
  | _ => Option.none

/-- `datetime.fromisoformat` on a string. -/
def fromIso (s : String) : Option PyDateTime :=
  fromIsoChars s.data

/-- `.date()` of a datetime: its date component, as the triple that
identifies a `datetime.date`. -/
def PyDateTime.dateTriple (d : PyDateTime) : Nat × Nat × Nat :=
  (d.year, d.month, d.day)

/-- `src/record/client_record.py`, class `ClientRecord`.  Fields keep
the dynamic `PyVal` type because the Python constructor validates only
`name` and `address_line_1`; everything else is stored as given. -/
structure ClientRecord where
  client_id : PyVal
  record_type : PyVal
  name : PyVal
  address_line_1 : PyVal
  address_line_2 : PyVal
  address_line_3 : PyVal
  city : PyVal
  state : PyVal
  zip_code : PyVal
  country : PyVal
  phone_number : PyVal
  deriving DecidableEq, Repr

/-- `ClientRecord.__init__`: raises `ValueError` (modelled as
`Except.error`) unless `name` and `address_line_1` are non-empty
strings; `address_line_2` and `address_line_3` are normalised to `""`
when falsy. -/
def ClientRecord.mkChecked (client_id record_type name a1 a2 a3 city state
    zip_code country phone_number : PyVal) : Except String ClientRecord :=
  match name with
  | .str ns =>
    if ns.isEmpty then .error "Client name must be a non-empty string."
    else
      match a1 with
      | .str a1s =>
        if a1s.isEmpty then .error "Address Line 1 must be a non-empty string."
        else .ok
          { client_id := client_id, record_type := record_type,
            name := name, address_line_1 := a1,
            address_line_2 := if a2.truthy then a2 else .str "",
            address_line_3 := if a3.truthy then a3 else .str "",
            city := city, state := state, zip_code := zip_code,
            country := country, phone_number := phone_number }
      | _ => .error "Address Line 1 must be a non-empty string."
  | _ => .error "Client name must be a non-empty string."

/-- `ClientRecord.to_dict`: the fixed external mapping, in source
order. -/
def ClientRecord.to_dict (r : ClientRecord) : PyDict :=
  [("client_id", r.client_id), ("record_type", r.record_type),
   ("name", r.name), ("address_line_1", r.address_line_1),
   ("address_line_2", r.address_line_2), ("address_line_3", r.address_line_3),
   ("city", r.city), ("state", r.state), ("zip_code", r.zip_code),
   ("country", r.country), ("phone_number", r.phone_number)]

/-- The required keys checked by `ClientRecord.from_dict`. -/
def clientRequiredFields : List String :=
  ["name", "address_line_1", "city", "state", "zip_code", "country",
   "phone_number"]

/-- `ClientRecord.from_dict`: requires the seven mandatory keys, then
constructs with `record_type` forced to `"Client"`, `client_id` taken
by `data.get` and the optional address lines defaulted to `""`. -/
def ClientRecord.from_dict (data : PyDict) : Except String ClientRecord :=
  if clientRequiredFields.all (fun f => dmem data f) then
    ClientRecord.mkChecked
      ((dget data "client_id").getD .none)
      (.str "Client")
      ((dget data "name").getD .none)
      ((dget data "address_line_1").getD .none)
      ((dget data "address_line_2").getD (.str ""))
      ((dget data "address_line_3").getD (.str ""))
      ((dget data "city").getD .none)
      ((dget data "state").getD .none)
      ((dget data "zip_code").getD .none)
      ((dget data "country").getD .none)
      ((dget data "phone_number").getD .none)
  else .error "Cannot create ClientRecord. Missing required field."

/-- The invariant every `ClientRecord` held by a manager satisfies
(established by `from_dict`, through which every stored record is
built): non-empty string name and first address line, the tag forced
to `"Client"`, and normalised optional address lines. -/
def ClientRecord.wfStored (r : ClientRecord) : Bool :=
  (match r.name with | .str s => !s.isEmpty | _ => false) &&
  (match r.address_line_1 with | .str s => !s.isEmpty | _ => false) &&
  r.record_type == PyVal.str "Client" &&
  (r.address_line_2.truthy || r.address_line_2 == PyVal.str "") &&
  (r.address_line_3.truthy || r.address_line_3 == PyVal.str "")

/-- `src/record/airline_record.py`, class `AirlineRecord`.  The
constructor validates all three fields, so the fields carry their
checked types: `airline_id` is `None` or an integer, `record_type` and
`company_name` are non-empty strings (non-emptiness is tracked by
`AirlineRecord.wfStored`). -/
structure AirlineRecord where
  airline_id : Option Int
  record_type : String
  company_name : String
  deriving DecidableEq, Repr

/-- `AirlineRecord.__init__` validation. -/
def AirlineRecord.mkChecked (record_type company_name airline_id : PyVal) :
    Except String AirlineRecord :=
  match record_type with
  | .str rts =>
    if rts.isEmpty then .error "Record type must be a non-empty string."
    else
      match company_name with
      | .str cns =>
        if cns.isEmpty then
          .error "Airline company name must be a non-empty string."
        else
          match airline_id with
          | .none => .ok ⟨Option.none, rts, cns⟩
          | .int n => .ok ⟨some n, rts, cns⟩
          | .str _ => .error "Airline ID must be an integer if provided."
      | _ => .error "Airline company name must be a non-empty string."
  | _ => .error "Record type must be a non-empty string."

/-- `AirlineRecord.to_dict`. -/
def AirlineRecord.to_dict (r : AirlineRecord) : PyDict :=
  [("airline_id", match r.airline_id with | some n => .int n | _ => .none),
   ("record_type", .str r.record_type),
   ("company_name", .str r.company_name)]

/-- `AirlineRecord.from_dict`: requires `record_type` and
`company_name`, takes `airline_id` by `data.get`. -/
def AirlineRecord.from_dict (data : PyDict) : Except String AirlineRecord :=
  if dmem data "record_type" && dmem data "company_name" then
    AirlineRecord.mkChecked
      ((dget data "record_type").getD .none)
      ((dget data "company_name").getD .none)
      ((dget data "airline_id").getD .none)
  else .error "Cannot create AirlineRecord. Missing required field."

/-- The invariant every constructed `AirlineRecord` satisfies: the two
string fields are non-empty. -/
def AirlineRecord.wfStored (r : AirlineRecord) : Bool :=
  !r.record_type.isEmpty && !r.company_name.isEmpty

/-- `src/record/flight_record.py`, class `FlightRecord`.  The
constructor validates every field, so the fields carry their checked
types; non-emptiness of the strings and the date ranges are tracked by
`FlightRecord.wfStored`. -/
structure FlightRecord where
  record_type : String
  client_id : Int
  airline_id : Int
  flight_date : PyDateTime
  start_city : String
  end_city : String
  deriving DecidableEq, Repr

/-- `FlightRecord.__init__` validation (the date is already a
`datetime` here; `from_dict` parses the string form first). -/
def FlightRecord.mkChecked (record_type client_id airline_id : PyVal)
    (flight_date : PyDateTime) (start_city end_city : PyVal) :
    Except String FlightRecord :=
  match record_type with
  | .str rts =>
    if rts.isEmpty then .error "Record type must be a non-empty string."
    else
      match client_id, airline_id with
      | .int ci, .int ai =>
        match start_city, end_city with
        | .str sc, .str ec =>
          if sc.isEmpty then .error "Start city must be a non-empty string."
          else if ec.isEmpty then
            .error "End city must be a non-empty string."
          else .ok ⟨rts, ci, ai, flight_date, sc, ec⟩
        | _, _ => .error "City must be a non-empty string."
      | _, _ => .error "Client ID and Airline ID must be integers."
  | _ => .error "Record type must be a non-empty string."

/-- `FlightRecord.to_dict`: the external mapping, with the date as its
ISO string. -/
def FlightRecord.to_dict (f : FlightRecord) : PyDict :=
  [("record_type", .str f.record_type),
   ("Client_ID", .int f.client_id),
   ("Airline_ID", .int f.airline_id),
   ("Date", .str f.flight_date.isoStr),
   ("Start City", .str f.start_city),
   ("End City", .str f.end_city)]

/-- The required keys checked by `FlightRecord.from_dict`. -/
def flightRequiredFields : List String :=
  ["record_type", "Client_ID", "Airline_ID", "Date", "Start City",
   "End City"]

/-- `FlightRecord.from_dict`: requires the six keys, parses the date
with `datetime.fromisoformat` (failure, including a non-string date,
becomes `ValueError`), then constructs. -/
def FlightRecord.from_dict (data : PyDict) : Except String FlightRecord :=
  if flightRequiredFields.all (fun f => dmem data f) then
    match (dget data "Date").getD .none with
    | .str ds =>
      match fromIso ds with
      | some dt =>
        FlightRecord.mkChecked
          ((dget data "record_type").getD .none)
          ((dget data "Client_ID").getD .none)
          ((dget data "Airline_ID").getD .none)
          dt
          ((dget data "Start City").getD .none)
          ((dget data "End City").getD .none)
      | Option.none => .error "Invalid date format for Date."
    | _ => .error "Invalid date format for Date."
  else .error "Cannot create FlightRecord. Missing required field."

/-- The invariant every constructed `FlightRecord` satisfies: non-empty
tag and cities, and a date within `datetime` constructor ranges. -/
def FlightRecord.wfStored (f : FlightRecord) : Bool :=
  !f.record_type.isEmpty && !f.start_city.isEmpty && !f.end_city.isEmpty &&
  f.flight_date.validB

/-- In-memory state of a `ClientManager`: the owned record list and the
next-ID counter. -/
structure CState where
  clients : List ClientRecord
  nextId : Int
  deriving DecidableEq, Repr

/-- `ClientManager.get_client_by_id`: linear scan for an exact ID
match. -/
def get_client_by_id (st : CState) (cid : Int) : Option ClientRecord :=
  st.clients.find? (fun c => c.client_id == PyVal.int cid)

/-- `ClientManager.get_all_clients` (the defensive copy is identity on
the mathematical list). -/
def get_all_clients (st : CState) : List ClientRecord :=
  st.clients

/-- `ClientManager.add_client`.  `saveOk` is the result of the
`_save_clients` full-file rewrite.  The ID counter is bumped by
`_generate_id` and decremented again on every failure path. -/
def add_client (st : CState) (client_data : PyDict) (saveOk : Bool) :
    Option ClientRecord × CState :=
  let newId := st.nextId
  let st1 : CState := { st with nextId := st.nextId + 1 }
  let data_for_record :=
    dset (dset client_data "client_id" (.int newId)) "record_type"
      (.str "Client")
  match ClientRecord.from_dict data_for_record with
  | .error _ => (Option.none, { st1 with nextId := st1.nextId - 1 })
  | .ok new_client =>
    let st2 := { st1 with clients := st1.clients ++ [new_client] }
    if saveOk then (some new_client, st2)
    else
      (Option.none,
       { st2 with clients := st2.clients.dropLast, nextId := st2.nextId - 1 })

/-- The merge loop of `ClientManager.update_client`: walks
`update_info`, skipping keys absent from the current mapping and the
protected keys `client_id` / `record_type`, and records whether any
field actually changed. -/
def mergeClient : PyDict → Bool → PyDict → PyDict × Bool
  | cur, ch, [] => (cur, ch)
  | cur, ch, (k, v) :: rest =>
    if dmem cur k && !(k == "client_id" || k == "record_type") then
      if dget cur k != some v then mergeClient (dset cur k v) true rest
      else mergeClient cur ch rest
    else mergeClient cur ch rest

/-- `ClientManager.update_client`.  On a failed save the slot is
restored from `ClientRecord.from_dict` of the backup mapping; were that
reconstruction to raise, the exception handler would return `None`
leaving the new record in place, which the last match arm mirrors. -/
def update_client (st : CState) (cid : Int) (update_info : PyDict)
    (saveOk : Bool) : Option ClientRecord × CState :=
  match h : st.clients.findIdx? (fun c => c.client_id == PyVal.int cid) with
  | Option.none => (Option.none, st)
  | some i =>
    have hi : i < st.clients.length := List.findIdx?_eq_some_iff_findIdx_eq.mp h
      |>.1
    let r := st.clients[i]
    let current_data := r.to_dict
    let (merged, changed) := mergeClient current_data false update_info
    if !changed then (some r, st)
    else
      match ClientRecord.from_dict merged with
      | .error _ => (Option.none, st)
      | .ok updated =>
        let st2 := { st with clients := st.clients.set i updated }
        if saveOk then (some updated, st2)
        else
          match ClientRecord.from_dict current_data with
          | .ok restored =>
            (Option.none, { st with clients := st.clients.set i restored })
          | .error _ => (Option.none, st2)

/-- `ClientManager.delete_client`: remove, save, re-insert at the
original index when the save fails. -/
def delete_client (st : CState) (cid : Int) (saveOk : Bool) :
    Bool × CState :=
  match st.clients.findIdx? (fun c => c.client_id == PyVal.int cid) with
  | Option.none => (false, st)
  | some i =>
    match st.clients[i]? with
    | Option.none => (false, st)
    | some r =>
      let removed := st.clients.eraseIdx i
      if saveOk then (true, { st with clients := removed })
      else (false, { st with clients := removed.insertIdx i r })

/-- One criterion of `ClientManager.find_clients` reads the attribute
named by the key; the eleven data attributes of `ClientRecord` are the
searchable fields (`hasattr` is false for any other name used as a
field). -/
def ClientRecord.getattr (r : ClientRecord) : String → Option PyVal
  | "client_id" => some r.client_id
  | "record_type" => some r.record_type
  | "name" => some r.name
  | "address_line_1" => some r.address_line_1
  | "address_line_2" => some r.address_line_2
  | "address_line_3" => some r.address_line_3
  | "city" => some r.city
  | "state" => some r.state
  | "zip_code" => some r.zip_code
  | "country" => some r.country
  | "phone_number" => some r.phone_number
  | _ => Option.none

/-- `type(client_value)(search_value) == client_value` for a non-string
`client_value`, with a raised coercion error modelled as `false`
(Python: `int(...)` of an unparsable string or of `None` raises, and
`NoneType` cannot be called with an argument). -/
def coerceEq (client_value search_value : PyVal) : Bool :=
  match client_value, search_value with
  | .int n, .int m => m == n
  | .int n, .str s =>
    match pyIntOfStr s with
    | some m => m == n
    | Option.none => false
  | .int _, .none => false
  | .none, _ => false
  | .str _, _ => false

/-- The inner criteria loop of `ClientManager.find_clients` for one
record: early `break` on the first failing criterion. -/
def clientMatchLoop (r : ClientRecord) : PyDict → Bool
  | [] => true
  | (key, search_value) :: rest =>
    match r.getattr key with
    | Option.none => false
    | some client_value =>
      match search_value with
      | .none =>
        match client_value with
        | .none => clientMatchLoop r rest
        | _ => false
      | _ =>
        match client_value with
        | .none => false
        | .str cs =>
          match search_value with
          | .str ss =>
            if strContainsCI cs ss then clientMatchLoop r rest else false
          | _ => false
        | _ =>
          if coerceEq client_value search_value then clientMatchLoop r rest
          else false

/-- `ClientManager.find_clients`: empty criteria return everything,
otherwise keep the records matching every criterion. -/
def find_clients (st : CState) (criteria : PyDict) : List ClientRecord :=
  if criteria.isEmpty then get_all_clients st
  else st.clients.filter (fun r => clientMatchLoop r criteria)

/-- In-memory state of an `AirlineManager`. -/
structure AState where
  airlines : List AirlineRecord
  nextId : Int
  deriving DecidableEq, Repr

/-- `AirlineManager.get_airline_by_id`. -/
def get_airline_by_id (st : AState) (aid : Int) : Option AirlineRecord :=
  st.airlines.find? (fun a => a.airline_id == some aid)

/-- `AirlineManager.get_all_airlines`. -/
def get_all_airlines (st : AState) : List AirlineRecord :=
  st.airlines

/-- `AirlineManager.add_airline`: generates the ID, requires the
`record_type` key to be present (usage error otherwise, refunding the
ID), requires a truthy `company_name`, constructs, appends, saves. -/
def add_airline (st : AState) (airline_data : PyDict) (saveOk : Bool) :
    Option AirlineRecord × AState :=
  let newId := st.nextId
  let st1 : AState := { st with nextId := st.nextId + 1 }
  let data_for_record := dset airline_data "airline_id" (.int newId)
  if !dmem data_for_record "record_type" then
    (Option.none, { st1 with nextId := st1.nextId - 1 })
  else if !((dget data_for_record "company_name").getD .none).truthy ||
      !dmem data_for_record "company_name" then
    (Option.none, { st1 with nextId := st1.nextId - 1 })
  else
    match AirlineRecord.from_dict data_for_record with
    | .error _ => (Option.none, { st1 with nextId := st1.nextId - 1 })
    | .ok new_airline =>
      let st2 := { st1 with airlines := st1.airlines ++ [new_airline] }
      if saveOk then (some new_airline, st2)
      else
        (Option.none,
         { st2 with airlines := st2.airlines.dropLast,
                    nextId := st2.nextId - 1 })

/-- The merge loop of `AirlineManager.update_airline`: only
`airline_id` is skipped; keys present in the current mapping are
replaced on change, and the keys `company_name` / `record_type` may
even be added when absent. -/
def mergeAirline : PyDict → Bool → PyDict → PyDict × Bool
  | cur, ch, [] => (cur, ch)
  | cur, ch, (k, v) :: rest =>
    if k == "airline_id" then mergeAirline cur ch rest
    else if dmem cur k then
      if dget cur k != some v then mergeAirline (dset cur k v) true rest
      else mergeAirline cur ch rest
    else if k == "company_name" || k == "record_type" then
      mergeAirline (dset cur k v) true rest
    else mergeAirline cur ch rest

/-- `AirlineManager.update_airline`. -/
def update_airline (st : AState) (aid : Int) (update_info : PyDict)
    (saveOk : Bool) : Option AirlineRecord × AState :=
  match h : st.airlines.findIdx? (fun a => a.airline_id == some aid) with
  | Option.none => (Option.none, st)
  | some i =>
    have hi : i < st.airlines.length :=
      List.findIdx?_eq_some_iff_findIdx_eq.mp h |>.1
    let r := st.airlines[i]
    let current_data := r.to_dict
    let (merged, changed) := mergeAirline current_data false update_info
    if !changed then (some r, st)
    else
      match AirlineRecord.from_dict merged with
      | .error _ => (Option.none, st)
      | .ok updated =>
        let st2 := { st with airlines := st.airlines.set i updated }
        if saveOk then (some updated, st2)
        else
          match AirlineRecord.from_dict current_data with
          | .ok restored =>
            (Option.none, { st with airlines := st.airlines.set i restored })
          | .error _ => (Option.none, st2)

/-- `AirlineManager.delete_airline`. -/
def delete_airline (st : AState) (aid : Int) (saveOk : Bool) :
    Bool × AState :=
  match st.airlines.findIdx? (fun a => a.airline_id == some aid) with
  | Option.none => (false, st)
  | some i =>
    match st.airlines[i]? with
    | Option.none => (false, st)
    | some r =>
      let removed := st.airlines.eraseIdx i
      if saveOk then (true, { st with airlines := removed })
      else (false, { st with airlines := removed.insertIdx i r })

/-- In-memory state of a `FlightManager` (flights have no surrogate ID,
so there is no counter; the client and airline managers it validates
against are passed to each operation that needs them). -/
structure FState where
  flights : List FlightRecord
  deriving DecidableEq, Repr

/-- `FlightManager.get_all_flights`. -/
def get_all_flights (st : FState) : List FlightRecord :=
  st.flights

/-- `FlightManager.add_flight`: requires the six keys, validates the
two foreign keys (each must be an integer resolving in the respective
manager) before any mutation, then constructs, appends and saves,
undoing the append when the save fails. -/
def add_flight (cm : CState) (am : AState) (st : FState)
    (flight_data : PyDict) (saveOk : Bool) : Option FlightRecord × FState :=
  if !flightRequiredFields.all (fun k => dmem flight_data k) then
    (Option.none, st)
  else
    let client_id := (dget flight_data "Client_ID").getD .none
    let airline_id := (dget flight_data "Airline_ID").getD .none
    match client_id with
    | .int ci =>
      if (get_client_by_id cm ci).isNone then (Option.none, st)
      else
        match airline_id with
        | .int ai =>
          if (get_airline_by_id am ai).isNone then (Option.none, st)
          else
            match FlightRecord.from_dict flight_data with
            | .error _ => (Option.none, st)
            | .ok new_flight =>
              let st2 : FState := ⟨st.flights ++ [new_flight]⟩
              if saveOk then (some new_flight, st2)
              else (Option.none, ⟨st2.flights.dropLast⟩)
        | _ => (Option.none, st)
    | _ => (Option.none, st)

/-- A value read off a flight during `find_flights`: either a plain
value (from the external mapping or a plain attribute) or the raw
`datetime` of the `flight_date` attribute. -/
inductive FVal where
  | py (v : PyVal) : FVal
  | dt (d : PyDateTime) : FVal
  deriving DecidableEq, Repr

/-- Attribute lookup on a flight, tried first by `find_flights`
(`hasattr` / `getattr` on the internal attribute names). -/
def FlightRecord.getattr (f : FlightRecord) : String → Option FVal
  | "record_type" => some (.py (.str f.record_type))
  | "client_id" => some (.py (.int f.client_id))
  | "airline_id" => some (.py (.int f.airline_id))
  | "flight_date" => some (.dt f.flight_date)
  | "start_city" => some (.py (.str f.start_city))
  | "end_city" => some (.py (.str f.end_city))
  | _ => Option.none

/-- The value `find_flights` compares for one criterion key: the
internal attribute when it exists, else the external `to_dict` entry,
else no value (criterion fails). -/
def flightSearchVal (f : FlightRecord) (key : String) : Option FVal :=
  match f.getattr key with
  | some v => some v
  | Option.none =>
    match dget f.to_dict key with
    | some v => some (.py v)
    | Option.none => Option.none

/-- The inner loop of `FlightManager.find_flights` for one flight: the
special date comparison applies only when the key spells `date`
case-insensitively, the looked-up value is a raw `datetime` and the
criterion is a string; every other combination is compared by plain
equality (a `datetime` never equals a plain value in Python). -/
def flightMatchLoop (f : FlightRecord) : PyDict → Bool
  | [] => true
  | (key, value_to_match) :: rest =>
    match flightSearchVal f key with
    | Option.none => false
    | some flight_val =>
      let is_date_key := pyLower key == "date"
      match flight_val, value_to_match with
      | .dt d, .str s =>
        if is_date_key then
          if s.length > 10 then
            match fromIso s with
            | some cdt =>
              if d == cdt then flightMatchLoop f rest else false
            | Option.none => false
          else
            match fromIso s with
            | some cdt =>
              if d.dateTriple == cdt.dateTriple then flightMatchLoop f rest
              else false
            | Option.none => false
        else false
      | .dt _, _ => false
      | .py v, w => if v == w then flightMatchLoop f rest else false

/-- `FlightManager.find_flights`. -/
def find_flights (st : FState) (criteria : PyDict) : List FlightRecord :=
  if criteria.isEmpty then get_all_flights st
  else st.flights.filter (fun f => flightMatchLoop f criteria)

/-- The natural-key fields used by `_find_flight_index`. -/
def flightIdKeys : List String :=
  ["Client_ID", "Airline_ID", "Date", "Start City", "End City"]

/-- `FlightManager._find_flight_index`: first flight whose external
mapping agrees with `identifying_details` on every natural-key
field. -/
def find_flight_index (st : FState) (identifying_details : PyDict) :
    Option Nat :=
  st.flights.findIdx? (fun f =>
    flightIdKeys.all (fun k =>
      dmem identifying_details k &&
      dget identifying_details k == dget f.to_dict k))

/-- The merge loop of `FlightManager.update_flight`: keys present in
the current mapping are replaced on change; absent keys are added (and
always count as a change). -/
def mergeFlight : PyDict → Bool → PyDict → PyDict × Bool
  | cur, ch, [] => (cur, ch)
  | cur, ch, (k, v) :: rest =>
    if dmem cur k then
      if dget cur k != some v then mergeFlight (dset cur k v) true rest
      else mergeFlight cur ch rest
    else mergeFlight (dset cur k v) true rest

/-- `FlightManager.update_flight`: natural-key lookup, merge, no-op on
no change, foreign keys re-validated only when present in the update
and different from the original, then reconstruct, replace and save
with rollback. -/
def update_flight (cm : CState) (am : AState) (st : FState)
    (identifying_details update_data : PyDict) (saveOk : Bool) :
    Option FlightRecord × FState :=
  match h : find_flight_index st identifying_details with
  | Option.none => (Option.none, st)
  | some i =>
    have hi : i < st.flights.length :=
      List.findIdx?_eq_some_iff_findIdx_eq.mp h |>.1
    let f := st.flights[i]
    let current_flight_dict := f.to_dict
    let (new_data, changed) :=
      mergeFlight current_flight_dict false update_data
    if !changed then (some f, st)
    else if dmem update_data "Client_ID" &&
        dget update_data "Client_ID" != dget current_flight_dict "Client_ID" &&
        !(match dget new_data "Client_ID" with
          | some (.int ci) => (get_client_by_id cm ci).isSome
          | _ => false) then
      (Option.none, st)
    else if dmem update_data "Airline_ID" &&
        dget update_data "Airline_ID" !=
          dget current_flight_dict "Airline_ID" &&
        !(match dget new_data "Airline_ID" with
          | some (.int ai) => (get_airline_by_id am ai).isSome
          | _ => false) then
      (Option.none, st)
    else
      match FlightRecord.from_dict new_data with
      | .error _ => (Option.none, st)
      | .ok updated =>
        let st2 : FState := ⟨st.flights.set i updated⟩
        if saveOk then (some updated, st2)
        else
          match FlightRecord.from_dict current_flight_dict with
          | .ok restored => (Option.none, ⟨st.flights.set i restored⟩)
          | .error _ => (Option.none, st2)

/-- `FlightManager.delete_flight`. -/
def delete_flight (st : FState) (identifying_details : PyDict)
    (saveOk : Bool) : Bool × FState :=
  match find_flight_index st identifying_details with
  | Option.none => (false, st)
  | some i =>
    match st.flights[i]? with
    | Option.none => (false, st)
    | some f =>
      let removed := st.flights.eraseIdx i
      if saveOk then (true, ⟨removed⟩)
      else (false, ⟨removed.insertIdx i f⟩)

/-- One line of a backing JSONL file: blank, unparsable JSON, or one
JSON object (the object itself is kept abstract as the mapping it
denotes; `json.loads` / `json.dump` round-trip it faithfully). -/
inductive LoadLine where
  | blank : LoadLine
  | badJson : LoadLine
  | jsonNonObject : LoadLine
  | json (d : PyDict) : LoadLine
  deriving DecidableEq, Repr

/- `LoadLine.jsonNonObject` stands for a line that IS valid JSON but
not a JSON object (for example `42`, `[]`, `"x"`, `null`, `true`).
On such a line `json.loads` succeeds but `data.get("record_type")`
raises `AttributeError`, which none of the per-line handlers
(`JSONDecodeError` / `ValueError` / `TypeError`) catches: the
exception escapes to the catch-all handler OUTSIDE the line loop, so
the records loaded so far are kept and every remaining line is
dropped.  The loaders below therefore stop at such a line. -/

/-- After appending a loaded client, `_load_clients` runs
`if client_obj.client_id and client_obj.client_id > highest: ...`;
a falsy ID skips the update and a non-integer ID raises a `TypeError`
on the comparison which the per-line handler catches (the record
stays), so in either case the running maximum is unchanged. -/
def updateHighest (h : Int) (v : PyVal) : Int :=
  match v with
  | .int n => if n != 0 && h < n then n else h
  | _ => h

/-- The line loop of `ClientManager._load_clients`, carrying the
accumulated records and the highest ID seen. -/
def load_clients_lines (acc : List ClientRecord) (highest : Int) :
    List LoadLine → List ClientRecord × Int
  | [] => (acc, highest)
  | line :: rest =>
    match line with
    | .blank => load_clients_lines acc highest rest
    | .badJson => load_clients_lines acc highest rest
    | .jsonNonObject => (acc, highest)
    | .json d =>
      if dget d "record_type" == some (.str "Client") then
        match ClientRecord.from_dict d with
        | .ok c =>
          load_clients_lines (acc ++ [c]) (updateHighest highest c.client_id)
            rest
        | .error _ => load_clients_lines acc highest rest
      else load_clients_lines acc highest rest

/-- `ClientManager.__init__` + `_load_clients`: a missing backing file
(`Option.none`) leaves the fresh empty state with the counter at `1`;
otherwise every line is processed and the counter becomes the highest
loaded ID plus one. -/
def load_clients_file : Option (List LoadLine) → CState
  | Option.none => ⟨[], 1⟩
  | some lines =>
    let (cs, highest) := load_clients_lines [] 0 lines
    ⟨cs, highest + 1⟩

/-- What one line contributes to a loaded `ClientManager`: the record,
when the line is a JSON object tagged `"Client"` that passes
`ClientRecord.from_dict` validation. -/
def clientLineParse : LoadLine → Option ClientRecord
  | .json d =>
    if dget d "record_type" == some (.str "Client") then
      (ClientRecord.from_dict d).toOption
    else Option.none
  | _ => Option.none

/-- The line loop of `FlightManager._load_flights`. -/
def load_flights_lines (acc : List FlightRecord) :
    List LoadLine → List FlightRecord
  | [] => acc
  | line :: rest =>
    match line with
    | .blank => load_flights_lines acc rest
    | .badJson => load_flights_lines acc rest
    | .jsonNonObject => acc
    | .json d =>
      if dget d "record_type" == some (.str "Flight") then
        match FlightRecord.from_dict d with
        | .ok f => load_flights_lines (acc ++ [f]) rest
        | .error _ => load_flights_lines acc rest
      else load_flights_lines acc rest

/-- `FlightManager.__init__` + `_load_flights`. -/
def load_flights_file : Option (List LoadLine) → List FlightRecord
  | Option.none => []
  | some lines => load_flights_lines [] lines

/-- What one line contributes to a loaded `FlightManager`. -/
def flightLineParse : LoadLine → Option FlightRecord
  | .json d =>
    if dget d "record_type" == some (.str "Flight") then
      (FlightRecord.from_dict d).toOption
    else Option.none
  | _ => Option.none

/-- After appending a loaded airline, `_load_airlines` runs
`if airline.airline_id is not None and airline.airline_id > highest:`
(unlike the client loader, which tests truthiness, so ID `0` also
updates the airline maximum when greater — it never is). -/
def updateHighestA (h : Int) (v : Option Int) : Int :=
  match v with
  | some n => if h < n then n else h
  | Option.none => h

/-- The line loop of `AirlineManager._load_airlines`, carrying the
accumulated records and the highest ID seen; a valid-JSON non-object
line aborts it like the other loaders. -/
def load_airlines_lines (acc : List AirlineRecord) (highest : Int) :
    List LoadLine → List AirlineRecord × Int
  | [] => (acc, highest)
  | line :: rest =>
    match line with
    | .blank => load_airlines_lines acc highest rest
    | .badJson => load_airlines_lines acc highest rest
    | .jsonNonObject => (acc, highest)
    | .json d =>
      if dget d "record_type" == some (.str "Airline") then
        match AirlineRecord.from_dict d with
        | .ok a =>
          load_airlines_lines (acc ++ [a])
            (updateHighestA highest a.airline_id) rest
        | .error _ => load_airlines_lines acc highest rest
      else load_airlines_lines acc highest rest

/-- `AirlineManager.__init__` + `_load_airlines`. -/
def load_airlines_file : Option (List LoadLine) → AState
  | Option.none => ⟨[], 1⟩
  | some lines =>
    let (as2, highest) := load_airlines_lines [] 0 lines
    ⟨as2, highest + 1⟩

/-- What one line contributes to a loaded `AirlineManager`. -/
def airlineLineParse : LoadLine → Option AirlineRecord
  | .json d =>
    if dget d "record_type" == some (.str "Airline") then
      (AirlineRecord.from_dict d).toOption
    else Option.none
  | _ => Option.none

/-- `FlightManager._save_flights`, seen as the sequence of JSON objects
written to the backing file (one `json.dump` per record, in order). -/
def save_flights (fs : List FlightRecord) : List PyDict :=
  fs.map FlightRecord.to_dict

/-- One public mutating `ClientManager` call, with the outcome of its
file rewrite. -/
inductive COp where
  | add (data : PyDict) (saveOk : Bool) : COp
  | update (cid : Int) (info : PyDict) (saveOk : Bool) : COp
  | delete (cid : Int) (saveOk : Bool) : COp

/-- The state after one `ClientManager` call. -/
def CState.step (st : CState) : COp → CState
  | .add data s => (add_client st data s).2
  | .update cid info s => (update_client st cid info s).2
  | .delete cid s => (delete_client st cid s).2

/-- The IDs handed out by the successful adds of a call sequence, in
order (a successful `add_client` assigns the counter value current at
the call). -/
def clientAssignedIds : CState → List COp → List Int
  | _, [] => []
  | st, .add data s :: ops =>
    match (add_client st data s).1 with
    | some _ => st.nextId :: clientAssignedIds (st.step (.add data s)) ops
    | Option.none => clientAssignedIds (st.step (.add data s)) ops
  | st, .update cid info s :: ops =>
    clientAssignedIds (st.step (.update cid info s)) ops
  | st, .delete cid s :: ops =>
    clientAssignedIds (st.step (.delete cid s)) ops

/-- One public mutating `AirlineManager` call. -/
inductive AOp where
  | add (data : PyDict) (saveOk : Bool) : AOp
  | update (aid : Int) (info : PyDict) (saveOk : Bool) : AOp
  | delete (aid : Int) (saveOk : Bool) : AOp

/-- The state after one `AirlineManager` call. -/
def AState.step (st : AState) : AOp → AState
  | .add data s => (add_airline st data s).2
  | .update aid info s => (update_airline st aid info s).2
  | .delete aid s => (delete_airline st aid s).2

/-- The IDs handed out by the successful adds of an `AirlineManager`
call sequence. -/
def airlineAssignedIds : AState → List AOp → List Int
  | _, [] => []
  | st, .add data s :: ops =>
    match (add_airline st data s).1 with
    | some _ => st.nextId :: airlineAssignedIds (st.step (.add data s)) ops
    | Option.none => airlineAssignedIds (st.step (.add data s)) ops
  | st, .update aid info s :: ops =>
    airlineAssignedIds (st.step (.update aid info s)) ops
  | st, .delete aid s :: ops =>
    airlineAssignedIds (st.step (.delete aid s)) ops

/-- One search criterion as the claim describes `find_clients`: the
record must have the field; when both the field value and the search
value are strings the search value must occur case-insensitively in
the field value; when the field value is not a string the search value
coerced to the field type must equal it (a failed coercion is no
match).  Stated from the claim text, to be compared with the code. -/
def specClientCriterion (r : ClientRecord) (key : String) (sv : PyVal) :
    Bool :=
  match r.getattr key with
  | Option.none => false
  | some fv =>
    (match fv, sv with
     | .str cs, .str ss => strContainsCI cs ss
     | _, _ => true) &&
    (match fv with
     | .str _ => true
     | _ => coerceEq fv sv)

/-- `find_clients` as the claim describes it: empty criteria return
everything, otherwise the records satisfying every criterion. -/
def specFindClients (st : CState) (criteria : PyDict) : List ClientRecord :=
  if criteria.isEmpty then st.clients
  else st.clients.filter (fun r =>
    criteria.all (fun kv => specClientCriterion r kv.1 kv.2))

/-- One search criterion as the code decides it (the declarative
reading of `clientMatchLoop`): a `None` search value matches exactly a
`None` field; a `None` field matches nothing else; two strings compare
by case-insensitive containment; a string field never matches a
non-string search value; a non-string field compares by coercion. -/
def clientCriterionMatches (r : ClientRecord) (key : String) (sv : PyVal) :
    Bool :=
  match r.getattr key with
  | Option.none => false
  | some fv =>
    match sv, fv with
    | .none, .none => true
    | .none, _ => false
    | _, .none => false
    | .str ss, .str cs => strContainsCI cs ss
    | _, .str _ => false
    | _, fv2 => coerceEq fv2 sv

/-- A stored client (the `"New York"` client of the spec example). -/
def clientAlice : ClientRecord :=
  ⟨.int 1, .str "Client", .str "Alice", .str "1 Main St", .str "", .str "",
   .str "New York", .str "NY", .str "10001", .str "US", .str "555-0100"⟩

/-- A `ClientManager` holding `clientAlice`. -/
def cState1 : CState := ⟨[clientAlice], 2⟩

/-- A stored airline. -/
def airlineAcme : AirlineRecord := ⟨some 1, "Airline", "Acme Air"⟩

/-- An `AirlineManager` holding `airlineAcme`. -/
def aState1 : AState := ⟨[airlineAcme], 2⟩

/-- A stored flight dated 2024-01-15 10:00:00. -/
def flightSample : FlightRecord :=
  ⟨"Flight", 1, 1, ⟨2024, 1, 15, 10, 0, 0⟩, "London", "Paris"⟩

/-- A `FlightManager` holding `flightSample`. -/
def fState1 : FState := ⟨[flightSample]⟩

/-- A valid `add_client` input mapping without a `record_type` key (the
example payload of the spec). -/
def clientDataNoTag : PyDict :=
  [("name", .str "A"), ("address_line_1", .str "X"), ("city", .str "C"),
   ("state", .str "S"), ("zip_code", .str "1"), ("country", .str "Y"),
   ("phone_number", .str "0")]

/-- A well-formed client JSON line, as a parsed object. -/
def goodClientDict : PyDict :=
  dset (dset clientDataNoTag "client_id" (.int 1)) "record_type"
    (.str "Client")

/-- The client record produced by adding `clientDataNoTag` to an empty
manager (ID 1, tag forced to `"Client"`). -/
def clientA : ClientRecord :=
  ⟨.int 1, .str "Client", .str "A", .str "X", .str "", .str "", .str "C",
   .str "S", .str "1", .str "Y", .str "0"⟩

/-- A short demonstration trace: two successful adds around a
successful delete of the first ID. -/
def demoClientOps : List COp :=
  [.add clientDataNoTag true, .delete 1 true, .add clientDataNoTag true]

/-- `add_flight` / `update_flight` reject a client reference exactly
when it is not an integer (including an absent key) or does not
resolve through `get_client_by_id`. -/
def badClientRef (cm : CState) (v : Option PyVal) : Bool :=
  match v with
  | some (.int n) => (get_client_by_id cm n).isNone
  | _ => true

/-- The airline-reference counterpart of `badClientRef`. -/
def badAirlineRef (am : AState) (v : Option PyVal) : Bool :=
  match v with
  | some (.int n) => (get_airline_by_id am n).isNone
  | _ => true


/-- The `airline_id` value of a record reconstructed by
`AirlineRecord.mkChecked` from the given dynamic value. -/
def decodeAid : PyVal → Option Int
  | .int n => some n
  | _ => Option.none


/-- The add-flight payload of the spec example: a well-formed flight
whose `Client_ID` (9999) names no client. -/
def flightDataBadClient : PyDict :=
  [("record_type", .str "Flight"), ("Client_ID", .int 9999),
   ("Airline_ID", .int 1), ("Date", .str "2024-01-15T10:00:00"),
   ("Start City", .str "Fakeville"), ("End City", .str "Nowhere")]

/-- A flight carrying the `FlightRecord` default tag `"flight"`
(lowercase), as `add_flight` accepts with only a warning. -/
def flightLower : FlightRecord :=
  ⟨"flight", 1, 1, ⟨2024, 1, 15, 10, 0, 0⟩, "London", "Paris"⟩


theorem dget_dreplace_self {d : PyDict} {k : String} (v : PyVal)
    (h : dmem d k = true) : dget (dreplace d k v) k = some v := by
  induction d with
  | nil => simp [dmem] at h
  | cons p rest ih =>
    obtain ⟨k2, v2⟩ := p
    simp only [dmem, Bool.or_eq_true] at h
    by_cases hk : k2 == k
    · simp [dreplace, hk, dget]
    · simp only [dreplace, hk, Bool.false_eq_true, if_false, dget]
      exact ih (h.resolve_left (by simp [hk]))

theorem dget_dreplace_ne {d : PyDict} {k k2 : String} (v : PyVal)
    (h : k2 ≠ k) : dget (dreplace d k v) k2 = dget d k2 := by
  induction d with
  | nil => rfl
  | cons p rest ih =>
    obtain ⟨k3, v3⟩ := p
    by_cases hk : k3 == k
    · have hkk2 : (k == k2) = false :=
        beq_eq_false_iff_ne.mpr (fun hc => h hc.symm)
      have hk3k2 : (k3 == k2) = false :=
        beq_eq_false_iff_ne.mpr (fun hc => h (hc.symm.trans (eq_of_beq hk)))
      simp [dreplace, hk, dget, hkk2, hk3k2, ih]
    · simp only [dreplace, hk, Bool.false_eq_true, if_false, dget]
      by_cases hk2 : k3 == k2
      · simp [hk2]
      · simp [hk2, ih]

theorem dget_append_self {d : PyDict} {k : String} (v : PyVal)
    (h : dmem d k = false) : dget (d ++ [(k, v)]) k = some v := by
  induction d with
  | nil => simp [dget]
  | cons p rest ih =>
    obtain ⟨k2, v2⟩ := p
    simp only [dmem, Bool.or_eq_false_iff] at h
    simp [dget, h.1, ih h.2]

theorem dget_append_ne {d : PyDict} {k k2 : String} (v : PyVal)
    (h : k2 ≠ k) : dget (d ++ [(k, v)]) k2 = dget d k2 := by
  induction d with
  | nil => simp [dget, beq_iff_eq]; exact fun hc => absurd hc.symm h
  | cons p rest ih =>
    obtain ⟨k3, v3⟩ := p
    by_cases hk : k3 == k2
    · simp [dget, hk]
    · simp [dget, hk, ih]

theorem dget_dset_self (d : PyDict) (k : String) (v : PyVal) :
    dget (dset d k v) k = some v := by
  unfold dset
  by_cases h : dmem d k
  · simp [h, dget_dreplace_self]
  · simp only [Bool.not_eq_true] at h
    simp [h, dget_append_self]

theorem dget_dset_ne (d : PyDict) {k k2 : String} (v : PyVal)
    (h : k2 ≠ k) : dget (dset d k v) k2 = dget d k2 := by
  unfold dset
  by_cases hm : dmem d k
  · simp [hm, dget_dreplace_ne _ h]
  · simp only [Bool.not_eq_true] at hm
    simp [hm, dget_append_ne _ h]

theorem dmem_dreplace (d : PyDict) (k k2 : String) (v : PyVal) :
    dmem (dreplace d k v) k2 = dmem d k2 := by
  induction d with
  | nil => rfl
  | cons p rest ih =>
    obtain ⟨k3, v3⟩ := p
    by_cases hk : k3 == k
    · have : (k3 == k2) = (k == k2) := by
        simp only [beq_iff_eq] at hk
        subst hk
        rfl
      simp [dreplace, hk, dmem, ih, this]
    · simp [dreplace, hk, dmem, ih]

theorem dmem_append (d : PyDict) (k k2 : String) (v : PyVal) :
    dmem (d ++ [(k, v)]) k2 = (dmem d k2 || k == k2) := by
  induction d with
  | nil => simp [dmem]
  | cons p rest ih =>
    obtain ⟨k3, v3⟩ := p
    simp [dmem, ih, Bool.or_assoc]

theorem dmem_dset (d : PyDict) (k k2 : String) (v : PyVal) :
    dmem (dset d k v) k2 = (dmem d k2 || k == k2) := by
  unfold dset
  by_cases hm : dmem d k
  · rw [if_pos hm, dmem_dreplace]
    by_cases hk : k == k2
    · have : dmem d k2 = true := by
        simp only [beq_iff_eq] at hk
        exact hk ▸ hm
      simp [this]
    · simp [hk]
  · simp only [Bool.not_eq_true] at hm
    rw [if_neg (by simp [hm]), dmem_append]

theorem list_set_self {α : Type} : ∀ (l : List α) (i : Nat) (a : α),
    l[i]? = some a → l.set i a = l
  | [], i, a, h => by simp at h
  | x :: t, 0, a, h => by simp at h; simp [h]
  | x :: t, i + 1, a, h => by
    simp only [List.getElem?_cons_succ] at h
    simp [List.set, list_set_self t i a h]

theorem list_insert_erase_self {α : Type} : ∀ (l : List α) (i : Nat) (a : α),
    l[i]? = some a → (l.eraseIdx i).insertIdx i a = l
  | [], i, a, h => by simp at h
  | x :: t, 0, a, h => by
    simp at h
    simp [List.eraseIdx, List.insertIdx, h]
  | x :: t, i + 1, a, h => by
    simp only [List.getElem?_cons_succ] at h
    rw [List.eraseIdx_cons_succ, List.insertIdx_succ_cons,
      list_insert_erase_self t i a h]

theorem digitChar_isDigit {d : Nat} (h : d < 10) :
    (Nat.digitChar d).isDigit = true := by
  interval_cases d <;> decide

theorem digitChar_toNat {d : Nat} (h : d < 10) :
    (Nat.digitChar d).toNat - 48 = d := by
  interval_cases d <;> decide

theorem parse2_pad2 {n : Nat} (h : n < 100) :
    parse2 (Nat.digitChar (n / 10)) (Nat.digitChar (n % 10)) = some n := by
  have h1 : n / 10 < 10 := by omega
  have h2 : n % 10 < 10 := Nat.mod_lt _ (by norm_num)
  simp [parse2, digitChar_isDigit h1, digitChar_isDigit h2,
    digitChar_toNat h1, digitChar_toNat h2]
  omega

theorem parse4_pad4 {n : Nat} (h : n < 10000) :
    parse4 (Nat.digitChar (n / 100 / 10)) (Nat.digitChar (n / 100 % 10))
      (Nat.digitChar (n % 100 / 10)) (Nat.digitChar (n % 100 % 10)) =
      some n := by
  have h1 : n / 100 < 100 := by omega
  have h2 : n % 100 < 100 := Nat.mod_lt _ (by norm_num)
  rw [parse4, parse2_pad2 h1, parse2_pad2 h2]
  show some (n / 100 * 100 + n % 100) = some n
  have key : n / 100 * 100 + n % 100 = n := by omega
  rw [key]

/-- `fromisoformat` is a left inverse of `isoformat` on in-range
date-times. -/
theorem fromIso_isoStr {d : PyDateTime} (h : d.validB = true) :
    fromIso d.isoStr = some d := by
  obtain ⟨y, mo, dd, hh, mi, ss⟩ := d
  simp only [PyDateTime.validB, Bool.and_eq_true, decide_eq_true_eq] at h
  have hy : y < 10000 := by omega
  have hmo : mo < 100 := by omega
  have hdd : dd < 100 := by omega
  have hhh : hh < 100 := by omega
  have hmi : mi < 100 := by omega
  have hss : ss < 100 := by omega
  show fromIsoChars (PyDateTime.isoChars ⟨y, mo, dd, hh, mi, ss⟩) = _
  simp only [PyDateTime.isoChars, pad4, pad2, List.cons_append,
    List.nil_append]
  rw [fromIsoChars]
  simp only [beq_self_eq_true, Bool.and_self, if_true, parse4_pad4 hy,
    parse2_pad2 hmo, parse2_pad2 hdd, parse2_pad2 hhh, parse2_pad2 hmi,
    parse2_pad2 hss]
  simp only [mkDateTime?]
  rw [if_pos]
  simp only [PyDateTime.validB, Bool.and_eq_true, decide_eq_true_eq]
  omega

/-- Every date-time produced by `fromisoformat` is in range. -/
theorem validB_of_fromIsoChars {l : List Char} {d : PyDateTime}
    (h : fromIsoChars l = some d) : d.validB = true := by
  unfold fromIsoChars at h
  repeat' split at h
  all_goals
    first
    | exact absurd h (by simp)
    | · simp only [mkDateTime?] at h
        split at h
        · rename_i hv
          obtain rfl : _ = d := Option.some.inj h
          exact hv
        · exact absurd h (by simp)

theorem truthyNorm (a : PyVal) :
    ((if a.truthy then a else PyVal.str "").truthy ||
      (if a.truthy then a else PyVal.str "") == PyVal.str "") = true := by
  cases h : a.truthy
  · simp [h, PyVal.truthy]
  · simp [h]

/-- Reconstructing a stored client from its external mapping gives the
record back unchanged. -/
theorem client_from_to (r : ClientRecord) (h : r.wfStored = true) :
    ClientRecord.from_dict r.to_dict = .ok r := by
  obtain ⟨cid, rt, nm, a1, a2, a3, ci, stt, zp, co, ph⟩ := r
  simp only [ClientRecord.wfStored, Bool.and_eq_true, Bool.or_eq_true,
    beq_iff_eq] at h
  obtain ⟨⟨⟨⟨hn, ha1⟩, hrt⟩, ha2⟩, ha3⟩ := h
  subst hrt
  cases nm with
  | str ns =>
    cases a1 with
    | str a1s =>
      simp only [Bool.not_eq_true'] at hn ha1
      have step : ClientRecord.from_dict
          (ClientRecord.to_dict ⟨cid, .str "Client", .str ns, .str a1s, a2,
            a3, ci, stt, zp, co, ph⟩) =
          ClientRecord.mkChecked cid (.str "Client") (.str ns) (.str a1s)
            a2 a3 ci stt zp co ph := rfl
      rw [step, ClientRecord.mkChecked]
      simp only [hn, ha1, Bool.false_eq_true, if_false]
      rcases ha2 with ha2 | ha2 <;> rcases ha3 with ha3 | ha3 <;>
        simp_all [PyVal.truthy]
    | none => exact absurd ha1 (by simp)
    | int m => exact absurd ha1 (by simp)
  | none => exact absurd hn (by simp)
  | int m => exact absurd hn (by simp)

theorem client_wf_of_mkChecked {cid nm a1 a2 a3 ci stt zp co ph : PyVal}
    {r : ClientRecord}
    (h : ClientRecord.mkChecked cid (.str "Client") nm a1 a2 a3 ci stt zp co
      ph = .ok r) : r.wfStored = true := by
  cases nm with
  | str ns =>
    cases a1 with
    | str a1s =>
      simp only [ClientRecord.mkChecked] at h
      split at h
      · exact Except.noConfusion h
      · split at h
        · exact Except.noConfusion h
        · obtain rfl : _ = r := Except.ok.inj h
          rename_i hns ha1
          simp only [Bool.not_eq_true] at hns ha1
          simp only [ClientRecord.wfStored, hns, ha1, truthyNorm,
            Bool.not_false, beq_self_eq_true, Bool.and_true, Bool.true_and,
            Bool.and_self]
    | none =>
      simp only [ClientRecord.mkChecked] at h
      split at h <;> exact Except.noConfusion h
    | int m =>
      simp only [ClientRecord.mkChecked] at h
      split at h <;> exact Except.noConfusion h
  | none => exact Except.noConfusion h
  | int m => exact Except.noConfusion h

/-- Every record `ClientRecord.from_dict` accepts satisfies the stored
invariant. -/
theorem client_wf_of_from_dict {d : PyDict} {r : ClientRecord}
    (h : ClientRecord.from_dict d = .ok r) : r.wfStored = true := by
  rw [ClientRecord.from_dict] at h
  split at h
  · exact client_wf_of_mkChecked h
  · exact Except.noConfusion h

/-- Reconstructing a stored airline from its external mapping gives the
record back unchanged. -/
theorem airline_from_to (r : AirlineRecord) (h : r.wfStored = true) :
    AirlineRecord.from_dict r.to_dict = .ok r := by
  obtain ⟨oid, rt, cn⟩ := r
  simp only [AirlineRecord.wfStored, Bool.and_eq_true, Bool.not_eq_true'] at h
  cases oid with
  | none =>
    have step : AirlineRecord.from_dict
        (AirlineRecord.to_dict ⟨Option.none, rt, cn⟩) =
        AirlineRecord.mkChecked (.str rt) (.str cn) .none := rfl
    rw [step, AirlineRecord.mkChecked]
    simp only [h.1, h.2, Bool.false_eq_true, if_false]
  | some n =>
    have step : AirlineRecord.from_dict
        (AirlineRecord.to_dict ⟨some n, rt, cn⟩) =
        AirlineRecord.mkChecked (.str rt) (.str cn) (.int n) := rfl
    rw [step, AirlineRecord.mkChecked]
    simp only [h.1, h.2, Bool.false_eq_true, if_false]

theorem airline_wf_of_mkChecked {rt cn aid : PyVal} {r : AirlineRecord}
    (h : AirlineRecord.mkChecked rt cn aid = .ok r) : r.wfStored = true := by
  cases rt with
  | str rts =>
    cases cn with
    | str cns =>
      simp only [AirlineRecord.mkChecked] at h
      split at h
      · exact Except.noConfusion h
      · split at h
        · exact Except.noConfusion h
        · rename_i hrt hcn
          simp only [Bool.not_eq_true] at hrt hcn
          cases aid with
          | none =>
            obtain rfl : _ = r := Except.ok.inj h
            simp [AirlineRecord.wfStored, hrt, hcn]
          | int n =>
            obtain rfl : _ = r := Except.ok.inj h
            simp [AirlineRecord.wfStored, hrt, hcn]
          | str s => exact Except.noConfusion h
    | none =>
      simp only [AirlineRecord.mkChecked] at h
      split at h <;> exact Except.noConfusion h
    | int m =>
      simp only [AirlineRecord.mkChecked] at h
      split at h <;> exact Except.noConfusion h
  | none => exact Except.noConfusion h
  | int m => exact Except.noConfusion h

/-- Every record `AirlineRecord.from_dict` accepts satisfies the stored
invariant. -/
theorem airline_wf_of_from_dict {d : PyDict} {r : AirlineRecord}
    (h : AirlineRecord.from_dict d = .ok r) : r.wfStored = true := by
  rw [AirlineRecord.from_dict] at h
  split at h
  · exact airline_wf_of_mkChecked h
  · exact Except.noConfusion h

/-- Reconstructing a stored flight from its external mapping gives the
record back unchanged (the date survives its ISO string form). -/
theorem flight_from_to (f : FlightRecord) (h : f.wfStored = true) :
    FlightRecord.from_dict f.to_dict = .ok f := by
  obtain ⟨rt, ci, ai, dt, sc, ec⟩ := f
  simp only [FlightRecord.wfStored, Bool.and_eq_true, Bool.not_eq_true'] at h
  obtain ⟨⟨⟨hrt, hsc⟩, hec⟩, hdt⟩ := h
  have step : FlightRecord.from_dict
      (FlightRecord.to_dict ⟨rt, ci, ai, dt, sc, ec⟩) =
      match fromIso dt.isoStr with
      | some pdt =>
        FlightRecord.mkChecked (.str rt) (.int ci) (.int ai) pdt (.str sc)
          (.str ec)
      | Option.none => .error "Invalid date format for Date." := rfl
  rw [step, fromIso_isoStr hdt]
  simp only [FlightRecord.mkChecked, hrt, hsc, hec, Bool.false_eq_true,
    if_false]

theorem flight_wf_of_mkChecked {rt ci ai sc ec : PyVal} {dt : PyDateTime}
    {f : FlightRecord} (hv : dt.validB = true)
    (h : FlightRecord.mkChecked rt ci ai dt sc ec = .ok f) :
    f.wfStored = true := by
  cases rt with
  | str rts =>
    cases ci with
    | int cin =>
      cases ai with
      | int ain =>
        cases sc with
        | str scs =>
          cases ec with
          | str ecs =>
            simp only [FlightRecord.mkChecked] at h
            split at h
            · exact Except.noConfusion h
            · split at h
              · exact Except.noConfusion h
              · split at h
                · exact Except.noConfusion h
                · rename_i hrt hscs hecs
                  simp only [Bool.not_eq_true] at hrt hscs hecs
                  obtain rfl : _ = f := Except.ok.inj h
                  simp [FlightRecord.wfStored, hrt, hscs, hecs, hv]
          | none =>
            simp only [FlightRecord.mkChecked] at h
            split at h <;> exact Except.noConfusion h
          | int x =>
            simp only [FlightRecord.mkChecked] at h
            split at h <;> exact Except.noConfusion h
        | none =>
          simp only [FlightRecord.mkChecked] at h
          split at h <;> exact Except.noConfusion h
        | int x =>
          simp only [FlightRecord.mkChecked] at h
          split at h <;> exact Except.noConfusion h
      | none =>
        simp only [FlightRecord.mkChecked] at h
        split at h <;> exact Except.noConfusion h
      | str x =>
        simp only [FlightRecord.mkChecked] at h
        split at h <;> exact Except.noConfusion h
    | none =>
      simp only [FlightRecord.mkChecked] at h
      split at h <;> exact Except.noConfusion h
    | str x =>
      simp only [FlightRecord.mkChecked] at h
      split at h <;> exact Except.noConfusion h
  | none => exact Except.noConfusion h
  | int m => exact Except.noConfusion h

/-- Every record `FlightRecord.from_dict` accepts satisfies the stored
invariant. -/
theorem flight_wf_of_from_dict {d : PyDict} {f : FlightRecord}
    (h : FlightRecord.from_dict d = .ok f) : f.wfStored = true := by
  rw [FlightRecord.from_dict] at h
  split at h
  · split at h
    · split at h
      · rename_i hiso
        exact flight_wf_of_mkChecked (validB_of_fromIsoChars hiso) h
      · exact Except.noConfusion h
    · exact Except.noConfusion h
  · exact Except.noConfusion h

theorem add_client_nextId (st : CState) (data : PyDict) (s : Bool) :
    (add_client st data s).2.nextId =
      if (add_client st data s).1.isSome then st.nextId + 1
      else st.nextId := by
  unfold add_client
  cases h : ClientRecord.from_dict
      (dset (dset data "client_id" (.int st.nextId)) "record_type"
        (.str "Client")) with
  | error e => simp [h]
  | ok r => cases s <;> simp [h]

theorem update_client_nextId (st : CState) (cid : Int) (info : PyDict)
    (s : Bool) : (update_client st cid info s).2.nextId = st.nextId := by
  unfold update_client
  split
  · rfl
  · dsimp only
    repeat' split
    all_goals rfl

theorem delete_client_nextId (st : CState) (cid : Int) (s : Bool) :
    (delete_client st cid s).2.nextId = st.nextId := by
  unfold delete_client
  repeat' split
  all_goals rfl

theorem cstep_nextId_le (st : CState) (op : COp) :
    st.nextId ≤ (st.step op).nextId := by
  cases op with
  | add data s =>
    show st.nextId ≤ (add_client st data s).2.nextId
    rw [add_client_nextId]
    split <;> omega
  | update cid info s =>
    show st.nextId ≤ (update_client st cid info s).2.nextId
    rw [update_client_nextId]
  | delete cid s =>
    show st.nextId ≤ (delete_client st cid s).2.nextId
    rw [delete_client_nextId]

theorem clientAssignedIds_lb :
    ∀ (ops : List COp) (st : CState) (x : Int),
      x ∈ clientAssignedIds st ops → st.nextId ≤ x
  | [], st, x, h => by simp [clientAssignedIds] at h
  | .add data s :: ops, st, x, h => by
    rw [clientAssignedIds] at h
    have hle := cstep_nextId_le st (.add data s)
    split at h
    · rcases List.mem_cons.mp h with rfl | h2
      · exact le_refl _
      · exact le_trans hle (clientAssignedIds_lb ops _ x h2)
    · exact le_trans hle (clientAssignedIds_lb ops _ x h)
  | .update cid info s :: ops, st, x, h => by
    rw [clientAssignedIds] at h
    exact le_trans (cstep_nextId_le st (.update cid info s))
      (clientAssignedIds_lb ops _ x h)
  | .delete cid s :: ops, st, x, h => by
    rw [clientAssignedIds] at h
    exact le_trans (cstep_nextId_le st (.delete cid s))
      (clientAssignedIds_lb ops _ x h)

theorem clientAssignedIds_pairwise :
    ∀ (ops : List COp) (st : CState),
      (clientAssignedIds st ops).Pairwise (· < ·)
  | [], st => by simp [clientAssignedIds]
  | .add data s :: ops, st => by
    rw [clientAssignedIds]
    split
    · rename_i r hr
      refine List.pairwise_cons.mpr ⟨?_, clientAssignedIds_pairwise ops _⟩
      intro x hx
      have hlb := clientAssignedIds_lb ops _ x hx
      have : (st.step (.add data s)).nextId = st.nextId + 1 := by
        show (add_client st data s).2.nextId = _
        rw [add_client_nextId]
        simp [hr]
      omega
    · exact clientAssignedIds_pairwise ops _
  | .update cid info s :: ops, st => by
    rw [clientAssignedIds]
    exact clientAssignedIds_pairwise ops _
  | .delete cid s :: ops, st => by
    rw [clientAssignedIds]
    exact clientAssignedIds_pairwise ops _

theorem add_airline_nextId (st : AState) (data : PyDict) (s : Bool) :
    (add_airline st data s).2.nextId =
      if (add_airline st data s).1.isSome then st.nextId + 1
      else st.nextId := by
  unfold add_airline
  dsimp only
  repeat' split
  all_goals simp_all

theorem update_airline_nextId (st : AState) (aid : Int) (info : PyDict)
    (s : Bool) : (update_airline st aid info s).2.nextId = st.nextId := by
  unfold update_airline
  split
  · rfl
  · dsimp only
    repeat' split
    all_goals rfl

theorem delete_airline_nextId (st : AState) (aid : Int) (s : Bool) :
    (delete_airline st aid s).2.nextId = st.nextId := by
  unfold delete_airline
  repeat' split
  all_goals rfl

theorem astep_nextId_le (st : AState) (op : AOp) :
    st.nextId ≤ (st.step op).nextId := by
  cases op with
  | add data s =>
    show st.nextId ≤ (add_airline st data s).2.nextId
    rw [add_airline_nextId]
    split <;> omega
  | update aid info s =>
    show st.nextId ≤ (update_airline st aid info s).2.nextId
    rw [update_airline_nextId]
  | delete aid s =>
    show st.nextId ≤ (delete_airline st aid s).2.nextId
    rw [delete_airline_nextId]

theorem airlineAssignedIds_lb :
    ∀ (ops : List AOp) (st : AState) (x : Int),
      x ∈ airlineAssignedIds st ops → st.nextId ≤ x
  | [], st, x, h => by simp [airlineAssignedIds] at h
  | .add data s :: ops, st, x, h => by
    rw [airlineAssignedIds] at h
    have hle := astep_nextId_le st (.add data s)
    split at h
    · rcases List.mem_cons.mp h with rfl | h2
      · exact le_refl _
      · exact le_trans hle (airlineAssignedIds_lb ops _ x h2)
    · exact le_trans hle (airlineAssignedIds_lb ops _ x h)
  | .update aid info s :: ops, st, x, h => by
    rw [airlineAssignedIds] at h
    exact le_trans (astep_nextId_le st (.update aid info s))
      (airlineAssignedIds_lb ops _ x h)
  | .delete aid s :: ops, st, x, h => by
    rw [airlineAssignedIds] at h
    exact le_trans (astep_nextId_le st (.delete aid s))
      (airlineAssignedIds_lb ops _ x h)

theorem airlineAssignedIds_pairwise :
    ∀ (ops : List AOp) (st : AState),
      (airlineAssignedIds st ops).Pairwise (· < ·)
  | [], st => by simp [airlineAssignedIds]
  | .add data s :: ops, st => by
    rw [airlineAssignedIds]
    split
    · rename_i r hr
      refine List.pairwise_cons.mpr ⟨?_, airlineAssignedIds_pairwise ops _⟩
      intro x hx
      have hlb := airlineAssignedIds_lb ops _ x hx
      have : (st.step (.add data s)).nextId = st.nextId + 1 := by
        show (add_airline st data s).2.nextId = _
        rw [add_airline_nextId]
        simp [hr]
      omega
    · exact airlineAssignedIds_pairwise ops _
  | .update aid info s :: ops, st => by
    rw [airlineAssignedIds]
    exact airlineAssignedIds_pairwise ops _
  | .delete aid s :: ops, st => by
    rw [airlineAssignedIds]
    exact airlineAssignedIds_pairwise ops _

theorem add_client_success {st : CState} {data : PyDict} {s : Bool}
    {r : ClientRecord} {st2 : CState}
    (h : add_client st data s = (some r, st2)) :
    s = true ∧
    ClientRecord.from_dict
      (dset (dset data "client_id" (.int st.nextId)) "record_type"
        (.str "Client")) = .ok r ∧
    st2 = ⟨st.clients ++ [r], st.nextId + 1⟩ := by
  unfold add_client at h
  dsimp only at h
  cases hfd : ClientRecord.from_dict
      (dset (dset data "client_id" (.int st.nextId)) "record_type"
        (.str "Client")) with
  | error e => rw [hfd] at h; exact Option.noConfusion (Prod.mk.inj h).1
  | ok r2 =>
    rw [hfd] at h
    cases s with
    | false => exact Option.noConfusion (Prod.mk.inj h).1
    | true =>
      obtain ⟨h1, h2⟩ := Prod.mk.inj h
      obtain rfl : r2 = r := Option.some.inj h1
      exact ⟨rfl, rfl, h2.symm⟩

theorem client_mkChecked_fields {cid rt nm a1 a2 a3 ci stt zp co ph : PyVal}
    {r : ClientRecord}
    (h : ClientRecord.mkChecked cid rt nm a1 a2 a3 ci stt zp co ph = .ok r) :
    r.client_id = cid ∧ r.record_type = rt := by
  cases nm with
  | str ns =>
    cases a1 with
    | str a1s =>
      simp only [ClientRecord.mkChecked] at h
      split at h
      · exact Except.noConfusion h
      · split at h
        · exact Except.noConfusion h
        · obtain rfl : _ = r := Except.ok.inj h
          exact ⟨rfl, rfl⟩
    | none =>
      simp only [ClientRecord.mkChecked] at h
      split at h <;> exact Except.noConfusion h
    | int m =>
      simp only [ClientRecord.mkChecked] at h
      split at h <;> exact Except.noConfusion h
  | none => exact Except.noConfusion h
  | int m => exact Except.noConfusion h

theorem client_from_dict_fields {d : PyDict} {r : ClientRecord}
    (h : ClientRecord.from_dict d = .ok r) :
    r.client_id = (dget d "client_id").getD .none ∧
    r.record_type = .str "Client" := by
  rw [ClientRecord.from_dict] at h
  split at h
  · exact client_mkChecked_fields h
  · exact Except.noConfusion h

theorem add_client_success_id {st : CState} {data : PyDict} {s : Bool}
    {r : ClientRecord} {st2 : CState}
    (h : add_client st data s = (some r, st2)) :
    r.client_id = PyVal.int st.nextId ∧ st2.nextId = st.nextId + 1 := by
  obtain ⟨hs, hfd, hst⟩ := add_client_success h
  have hfields := client_from_dict_fields hfd
  have hget : dget (dset (dset data "client_id" (.int st.nextId))
      "record_type" (.str "Client")) "client_id" = some (.int st.nextId) := by
    rw [dget_dset_ne _ _ (by decide), dget_dset_self]
  rw [hget] at hfields
  exact ⟨hfields.1, by rw [hst]⟩

theorem add_airline_success {st : AState} {data : PyDict} {s : Bool}
    {r : AirlineRecord} {st2 : AState}
    (h : add_airline st data s = (some r, st2)) :
    s = true ∧
    AirlineRecord.from_dict (dset data "airline_id" (.int st.nextId)) =
      .ok r ∧
    st2 = ⟨st.airlines ++ [r], st.nextId + 1⟩ := by
  unfold add_airline at h
  dsimp only at h
  split at h
  · exact Option.noConfusion (Prod.mk.inj h).1
  · split at h
    · exact Option.noConfusion (Prod.mk.inj h).1
    · cases hfd : AirlineRecord.from_dict
          (dset data "airline_id" (.int st.nextId)) with
      | error e => rw [hfd] at h; exact Option.noConfusion (Prod.mk.inj h).1
      | ok r2 =>
        rw [hfd] at h
        cases s with
        | false => exact Option.noConfusion (Prod.mk.inj h).1
        | true =>
          obtain ⟨h1, h2⟩ := Prod.mk.inj h
          obtain rfl : r2 = r := Option.some.inj h1
          exact ⟨rfl, rfl, h2.symm⟩

theorem airline_mkChecked_id {rt cn : PyVal} {n : Int} {r : AirlineRecord}
    (h : AirlineRecord.mkChecked rt cn (.int n) = .ok r) :
    r.airline_id = some n := by
  cases rt with
  | str rts =>
    cases cn with
    | str cns =>
      simp only [AirlineRecord.mkChecked] at h
      split at h
      · exact Except.noConfusion h
      · split at h
        · exact Except.noConfusion h
        · obtain rfl : _ = r := Except.ok.inj h
          rfl
    | none =>
      simp only [AirlineRecord.mkChecked] at h
      split at h <;> exact Except.noConfusion h
    | int m =>
      simp only [AirlineRecord.mkChecked] at h
      split at h <;> exact Except.noConfusion h
  | none => exact Except.noConfusion h
  | int m => exact Except.noConfusion h

theorem add_airline_success_id {st : AState} {data : PyDict} {s : Bool}
    {r : AirlineRecord} {st2 : AState}
    (h : add_airline st data s = (some r, st2)) :
    r.airline_id = some st.nextId ∧ st2.nextId = st.nextId + 1 := by
  obtain ⟨hs, hfd, hst⟩ := add_airline_success h
  rw [AirlineRecord.from_dict] at hfd
  split at hfd
  · have hget : dget (dset data "airline_id" (.int st.nextId)) "airline_id" =
        some (.int st.nextId) := dget_dset_self _ _ _
    rw [hget] at hfd
    exact ⟨airline_mkChecked_id hfd, by rw [hst]⟩
  · exact Except.noConfusion hfd

theorem add_flight_success {cm : CState} {am : AState} {st : FState}
    {data : PyDict} {s : Bool} {f : FlightRecord} {st2 : FState}
    (h : add_flight cm am st data s = (some f, st2)) :
    s = true ∧ FlightRecord.from_dict data = .ok f ∧
    st2 = ⟨st.flights ++ [f]⟩ := by
  unfold add_flight at h
  dsimp only at h
  split at h
  · exact Option.noConfusion (Prod.mk.inj h).1
  · split at h
    · split at h
      · exact Option.noConfusion (Prod.mk.inj h).1
      · split at h
        · split at h
          · exact Option.noConfusion (Prod.mk.inj h).1
          · split at h
            · exact Option.noConfusion (Prod.mk.inj h).1
            · rename_i hfd
              cases s with
              | false => exact Option.noConfusion (Prod.mk.inj h).1
              | true =>
                obtain ⟨h1, h2⟩ := Prod.mk.inj h
                obtain rfl : _ = f := Option.some.inj h1
                exact ⟨rfl, hfd, h2.symm⟩
        · exact Option.noConfusion (Prod.mk.inj h).1
    · exact Option.noConfusion (Prod.mk.inj h).1

theorem add_client_savefail (st : CState) (data : PyDict) :
    add_client st data false = (Option.none, st) := by
  unfold add_client
  dsimp only
  cases hfd : ClientRecord.from_dict
      (dset (dset data "client_id" (.int st.nextId)) "record_type"
        (.str "Client")) with
  | error e => simp
  | ok r => simp [List.dropLast_concat]

theorem delete_client_savefail (st : CState) (cid : Int) :
    delete_client st cid false = (false, st) := by
  unfold delete_client
  cases hidx : st.clients.findIdx? (fun c => c.client_id == PyVal.int cid)
    with
  | none => rfl
  | some i =>
    dsimp only
    cases hr : st.clients[i]? with
    | none => rfl
    | some r =>
      dsimp only
      rw [list_insert_erase_self _ _ _ hr]
      rfl

theorem update_client_savefail {st : CState} {cid : Int} (info : PyDict)
    {i : Nat} {r : ClientRecord}
    (hidx : st.clients.findIdx? (fun c => c.client_id == PyVal.int cid) =
      some i)
    (hr : st.clients[i]? = some r) (hwf : r.wfStored = true) :
    (update_client st cid info false).2 = st ∧
    ((mergeClient r.to_dict false info).2 = true →
      (update_client st cid info false).1 = Option.none) := by
  obtain ⟨hlt, hget⟩ := List.getElem?_eq_some.mp hr
  unfold update_client
  split
  · rename_i heq
    rw [hidx] at heq
    exact Option.noConfusion heq
  · rename_i i2 heq
    have hii : i2 = i := Option.some.inj (heq.symm.trans hidx)
    subst hii
    dsimp only
    rw [hget]
    cases hm : mergeClient r.to_dict false info with
    | mk merged changed =>
      cases changed with
      | false => exact ⟨rfl, fun hc => Bool.noConfusion hc⟩
      | true =>
        simp only [Bool.not_true, Bool.false_eq_true, if_false]
        cases hfd : ClientRecord.from_dict merged with
        | error e => exact ⟨rfl, fun _ => rfl⟩
        | ok updated =>
          rw [client_from_to r hwf]
          refine ⟨?_, fun _ => rfl⟩
          show ({ st with clients := st.clients.set i2 r } : CState) = st
          rw [list_set_self _ _ _ hr]

theorem add_airline_savefail (st : AState) (data : PyDict) :
    add_airline st data false = (Option.none, st) := by
  unfold add_airline
  dsimp only
  split
  · simp
  · split
    · simp
    · cases hfd : AirlineRecord.from_dict
          (dset data "airline_id" (.int st.nextId)) with
      | error e => simp
      | ok r => simp [List.dropLast_concat]

theorem delete_airline_savefail (st : AState) (aid : Int) :
    delete_airline st aid false = (false, st) := by
  unfold delete_airline
  cases hidx : st.airlines.findIdx? (fun a => a.airline_id == some aid) with
  | none => rfl
  | some i =>
    dsimp only
    cases hr : st.airlines[i]? with
    | none => rfl
    | some r =>
      dsimp only
      rw [list_insert_erase_self _ _ _ hr]
      rfl

theorem update_airline_savefail {st : AState} {aid : Int} (info : PyDict)
    {i : Nat} {r : AirlineRecord}
    (hidx : st.airlines.findIdx? (fun a => a.airline_id == some aid) =
      some i)
    (hr : st.airlines[i]? = some r) (hwf : r.wfStored = true) :
    (update_airline st aid info false).2 = st ∧
    ((mergeAirline r.to_dict false info).2 = true →
      (update_airline st aid info false).1 = Option.none) := by
  obtain ⟨hlt, hget⟩ := List.getElem?_eq_some.mp hr
  unfold update_airline
  split
  · rename_i heq
    rw [hidx] at heq
    exact Option.noConfusion heq
  · rename_i i2 heq
    have hii : i2 = i := Option.some.inj (heq.symm.trans hidx)
    subst hii
    dsimp only
    rw [hget]
    cases hm : mergeAirline r.to_dict false info with
    | mk merged changed =>
      cases changed with
      | false => exact ⟨rfl, fun hc => Bool.noConfusion hc⟩
      | true =>
        simp only [Bool.not_true, Bool.false_eq_true, if_false]
        cases hfd : AirlineRecord.from_dict merged with
        | error e => exact ⟨rfl, fun _ => rfl⟩
        | ok updated =>
          rw [airline_from_to r hwf]
          refine ⟨?_, fun _ => rfl⟩
          show ({ st with airlines := st.airlines.set i2 r } : AState) = st
          rw [list_set_self _ _ _ hr]

theorem add_flight_savefail (cm : CState) (am : AState) (st : FState)
    (data : PyDict) :
    add_flight cm am st data false = (Option.none, st) := by
  unfold add_flight
  dsimp only
  split
  · rfl
  · split
    · split
      · rfl
      · split
        · split
          · rfl
          · cases hfd : FlightRecord.from_dict data with
            | error e => simp
            | ok f => simp [List.dropLast_concat]
        · rfl
    · rfl

theorem delete_flight_savefail (st : FState) (idd : PyDict) :
    delete_flight st idd false = (false, st) := by
  unfold delete_flight
  cases hidx : find_flight_index st idd with
  | none => rfl
  | some i =>
    dsimp only
    cases hr : st.flights[i]? with
    | none => rfl
    | some f =>
      dsimp only
      rw [list_insert_erase_self _ _ _ hr]
      rfl

theorem update_flight_savefail {cm : CState} {am : AState} {st : FState}
    {idd : PyDict} (upd : PyDict) {i : Nat} {f : FlightRecord}
    (hidx : find_flight_index st idd = some i)
    (hr : st.flights[i]? = some f) (hwf : f.wfStored = true) :
    (update_flight cm am st idd upd false).2 = st ∧
    ((mergeFlight f.to_dict false upd).2 = true →
      (update_flight cm am st idd upd false).1 = Option.none) := by
  obtain ⟨hlt, hget⟩ := List.getElem?_eq_some.mp hr
  unfold update_flight
  split
  · rename_i heq
    rw [hidx] at heq
    exact Option.noConfusion heq
  · rename_i i2 heq
    have hii : i2 = i := Option.some.inj (heq.symm.trans hidx)
    subst hii
    dsimp only
    rw [hget]
    cases hm : mergeFlight f.to_dict false upd with
    | mk merged changed =>
      cases changed with
      | false => exact ⟨rfl, fun hc => Bool.noConfusion hc⟩
      | true =>
        simp only [Bool.not_true, Bool.false_eq_true, if_false]
        split
        · exact ⟨rfl, fun _ => rfl⟩
        · split
          · exact ⟨rfl, fun _ => rfl⟩
          · cases hfd : FlightRecord.from_dict merged with
            | error e => exact ⟨rfl, fun _ => rfl⟩
            | ok updated =>
              rw [flight_from_to f hwf]
              refine ⟨?_, fun _ => rfl⟩
              show (⟨st.flights.set i2 f⟩ : FState) = st
              rw [list_set_self _ _ _ hr]

theorem dmem_of_dget {d : PyDict} {k : String} {v : PyVal}
    (h : dget d k = some v) : dmem d k = true := by
  induction d with
  | nil => exact Option.noConfusion h
  | cons p rest ih =>
    obtain ⟨k2, v2⟩ := p
    rw [dget] at h
    rw [dmem]
    by_cases hk : k2 == k
    · simp [hk]
    · simp only [hk, Bool.false_eq_true, if_false] at h
      simp [hk, ih h]

theorem mergeClient_protected (k : String) (info : PyDict)
    (hk : (k == "client_id" || k == "record_type") = true) :
    ∀ (cur : PyDict) (ch : Bool),
      dget (mergeClient cur ch info).1 k = dget cur k := by
  induction info with
  | nil => intro cur ch; rfl
  | cons p rest ih =>
    obtain ⟨k2, v2⟩ := p
    intro cur ch
    rw [mergeClient]
    split
    · rename_i hcond
      have hne : k ≠ k2 := by
        simp only [Bool.and_eq_true, Bool.not_eq_true', Bool.or_eq_false_iff,
          beq_eq_false_iff_ne, Bool.or_eq_true, beq_iff_eq] at hcond hk
        rcases hk with rfl | rfl
        · exact fun hc => hcond.2.1 hc.symm
        · exact fun hc => hcond.2.2 hc.symm
      split
      · rw [ih, dget_dset_ne _ _ hne]
      · exact ih cur ch
    · exact ih cur ch

theorem mergeAirline_protected (k : String) (info : PyDict)
    (hk : k = "airline_id") :
    ∀ (cur : PyDict) (ch : Bool),
      dget (mergeAirline cur ch info).1 k = dget cur k := by
  subst hk
  induction info with
  | nil => intro cur ch; rfl
  | cons p rest ih =>
    obtain ⟨k2, v2⟩ := p
    intro cur ch
    rw [mergeAirline]
    split
    · exact ih cur ch
    · rename_i hcond
      have hne : "airline_id" ≠ k2 := by
        simp only [beq_eq_false_iff_ne, Bool.not_eq_true] at hcond
        exact fun hc => hcond hc.symm
      split
      · split
        · rw [ih, dget_dset_ne _ _ hne]
        · exact ih cur ch
      · split
        · rw [ih, dget_dset_ne _ _ hne]
        · exact ih cur ch

theorem mergeFlight_true (upd : PyDict) :
    ∀ (cur : PyDict), (mergeFlight cur true upd).2 = true := by
  induction upd with
  | nil => intro cur; rfl
  | cons p rest ih =>
    obtain ⟨k2, v2⟩ := p
    intro cur
    rw [mergeFlight]
    split
    · split
      · exact ih _
      · exact ih _
    · exact ih _

theorem mergeFlight_absent {k : String} (upd : PyDict)
    (hk : ∀ p ∈ upd, p.1 ≠ k) :
    ∀ (cur : PyDict) (ch : Bool),
      dget (mergeFlight cur ch upd).1 k = dget cur k := by
  induction upd with
  | nil => intro cur ch; rfl
  | cons p rest ih =>
    obtain ⟨k2, v2⟩ := p
    intro cur ch
    have hne : k ≠ k2 := fun hc => hk (k2, v2) (by simp) (by simp [hc])
    have hrest : ∀ p ∈ rest, p.1 ≠ k := fun p hp => hk p (by simp [hp])
    rw [mergeFlight]
    split
    · split
      · rw [ih hrest, dget_dset_ne _ _ hne]
      · exact ih hrest cur ch
    · rw [ih hrest, dget_dset_ne _ _ hne]

theorem mergeFlight_changed_val {k : String} {v : PyVal} :
    ∀ (upd : PyDict) (cur : PyDict) (ch : Bool),
      (upd.map Prod.fst).Nodup →
      dget upd k = some v →
      dmem cur k = true →
      dget cur k ≠ some v →
      dget (mergeFlight cur ch upd).1 k = some v ∧
      (mergeFlight cur ch upd).2 = true := by
  intro upd
  induction upd with
  | nil => intro cur ch _ hv; exact Option.noConfusion hv
  | cons p rest ih =>
    obtain ⟨k2, v2⟩ := p
    intro cur ch hnd hv hmem hne
    simp only [List.map_cons, List.nodup_cons] at hnd
    by_cases hk2 : k2 = k
    · subst hk2
      rw [dget, if_pos (by simp)] at hv
      obtain rfl : v2 = v := Option.some.inj hv
      have hrest : ∀ p ∈ rest, p.1 ≠ k2 := by
        intro p hp hc
        exact hnd.1 (hc ▸ List.mem_map_of_mem Prod.fst hp)
      rw [mergeFlight, if_pos hmem, if_pos (by
        simp only [bne_iff_ne, ne_eq]
        exact hne)]
      constructor
      · rw [mergeFlight_absent rest hrest, dget_dset_self]
      · exact mergeFlight_true rest _
    · have hv2 : dget rest k = some v := by
        rw [dget, if_neg (by simp [hk2])] at hv
        exact hv
      rw [mergeFlight]
      split
      · split
        · refine ih _ true hnd.2 hv2 ?_ ?_
          · rw [dmem_dset]
            simp [hmem]
          · rw [dget_dset_ne _ _ (fun hc => hk2 hc.symm)]
            exact hne
        · exact ih _ ch hnd.2 hv2 hmem hne
      · refine ih _ true hnd.2 hv2 ?_ ?_
        · rw [dmem_dset]
          simp [hmem]
        · rw [dget_dset_ne _ _ (fun hc => hk2 hc.symm)]
          exact hne

/-- C1: for every manager (ClientManager, AirlineManager, FlightManager)
and every mutating operation (add, update, delete), when the full-file
rewrite fails (`saveOk = false`) the operation leaves the in-memory
record list and the next-ID counter exactly as before the call — the
deleted or updated record is back at its original position — and
returns the failure signal (`none` for add/update once the merge
changed a field, `false` for delete).  The update conjuncts assume the
stored-record invariant `wfStored`, which every record a manager holds
satisfies by construction. -/
theorem c1_failed_save_rolls_back :
    (∀ (st : CState) (data : PyDict),
      add_client st data false = (Option.none, st)) ∧
    (∀ (st : CState) (cid : Int) (info : PyDict) (i : Nat) (r : ClientRecord),
      st.clients.findIdx? (fun c => c.client_id == PyVal.int cid) = some i →
      st.clients[i]? = some r → r.wfStored = true →
      (update_client st cid info false).2 = st ∧
      ((mergeClient r.to_dict false info).2 = true →
        (update_client st cid info false).1 = Option.none)) ∧
    (∀ (st : CState) (cid : Int), delete_client st cid false = (false, st)) ∧
    (∀ (st : AState) (data : PyDict),
      add_airline st data false = (Option.none, st)) ∧
    (∀ (st : AState) (aid : Int) (info : PyDict) (i : Nat)
        (r : AirlineRecord),
      st.airlines.findIdx? (fun a => a.airline_id == some aid) = some i →
      st.airlines[i]? = some r → r.wfStored = true →
      (update_airline st aid info false).2 = st ∧
      ((mergeAirline r.to_dict false info).2 = true →
        (update_airline st aid info false).1 = Option.none)) ∧
    (∀ (st : AState) (aid : Int), delete_airline st aid false = (false, st)) ∧
    (∀ (cm : CState) (am : AState) (st : FState) (data : PyDict),
      add_flight cm am st data false = (Option.none, st)) ∧
    (∀ (cm : CState) (am : AState) (st : FState) (idd upd : PyDict) (i : Nat)
        (f : FlightRecord),
      find_flight_index st idd = some i →
      st.flights[i]? = some f → f.wfStored = true →
      (update_flight cm am st idd upd false).2 = st ∧
      ((mergeFlight f.to_dict false upd).2 = true →
        (update_flight cm am st idd upd false).1 = Option.none)) ∧
    (∀ (st : FState) (idd : PyDict),
      delete_flight st idd false = (false, st)) :=
  ⟨add_client_savefail,
   fun _ _ info _ _ h1 h2 h3 => update_client_savefail info h1 h2 h3,
   delete_client_savefail,
   add_airline_savefail,
   fun _ _ info _ _ h1 h2 h3 => update_airline_savefail info h1 h2 h3,
   delete_airline_savefail,
   add_flight_savefail,
   fun _ _ _ _ upd _ _ h1 h2 h3 => update_flight_savefail upd h1 h2 h3,
   delete_flight_savefail⟩

/-- C1 witness: the client-update conjunct of C1 applied to a concrete
one-client manager with a failing save. -/
theorem c1_witness :
    update_client cState1 1 [("city", PyVal.str "Boston")] false =
      (Option.none, cState1) := by
  have h := c1_failed_save_rolls_back.2.1 cState1 1
    [("city", PyVal.str "Boston")] 0 clientAlice rfl rfl (by rfl)
  have hch : (mergeClient clientAlice.to_dict false
      [("city", PyVal.str "Boston")]).2 = true := by rfl
  have h1 := h.2 hch
  have h2 := h.1
  cases hu : update_client cState1 1 [("city", PyVal.str "Boston")] false
    with
  | mk a b =>
    rw [hu] at h1 h2
    rw [show a = Option.none from h1, show b = cState1 from h2]

/-- C2: across any sequence of interleaved ClientManager or
AirlineManager calls, the IDs assigned by the successful adds are
strictly increasing in order of assignment (hence pairwise distinct,
and an ID freed by a delete is never reissued), and every successful
add returns the record stamped with the counter value current at the
call while bumping the counter by one. -/
theorem c2_ids_strictly_increasing :
    (∀ (st : CState) (ops : List COp),
      (clientAssignedIds st ops).Pairwise (· < ·)) ∧
    (∀ (st : CState) (data : PyDict) (s : Bool) (r : ClientRecord)
        (st2 : CState),
      add_client st data s = (some r, st2) →
      r.client_id = PyVal.int st.nextId ∧ st2.nextId = st.nextId + 1) ∧
    (∀ (st : AState) (ops : List AOp),
      (airlineAssignedIds st ops).Pairwise (· < ·)) ∧
    (∀ (st : AState) (data : PyDict) (s : Bool) (r : AirlineRecord)
        (st2 : AState),
      add_airline st data s = (some r, st2) →
      r.airline_id = some st.nextId ∧ st2.nextId = st.nextId + 1) :=
  ⟨fun st ops => clientAssignedIds_pairwise ops st,
   fun _ _ _ _ _ h => add_client_success_id h,
   fun st ops => airlineAssignedIds_pairwise ops st,
   fun _ _ _ _ _ h => add_airline_success_id h⟩

/-- C2 witness: a concrete add/delete/add trace assigns IDs 1 and 2,
and the C2 theorem instantiates to its strict increase. -/
theorem c2_witness :
    clientAssignedIds ⟨[], 1⟩ demoClientOps = [1, 2] ∧
    (clientAssignedIds ⟨[], 1⟩ demoClientOps).Pairwise (· < ·) :=
  ⟨by rfl, c2_ids_strictly_increasing.1 ⟨[], 1⟩ demoClientOps⟩

/-- C6 counterexample: the claim says an add input without the
record-kind tag key fails for every ClientManager or AirlineManager,
but `ClientManager.add_client` sets `record_type` itself and succeeds
on `clientDataNoTag`, which has no such key. -/
theorem c6_counterexample :
    (add_client ⟨[], 1⟩ clientDataNoTag true).1 = some clientA := by rfl

/-- C6 amended: only `AirlineManager.add_airline` requires the
`record_type` key — without it the add fails with a usage error,
returns `none`, refunds the generated ID and leaves the state exactly
unchanged; `ClientManager.add_client` never requires the key, forcing
the tag of every record it creates to `"Client"` instead. -/
theorem c6_amended :
    (∀ (st : AState) (data : PyDict) (s : Bool),
      dmem data "record_type" = false →
      add_airline st data s = (Option.none, st)) ∧
    (∀ (st : CState) (data : PyDict) (s : Bool) (r : ClientRecord)
        (st2 : CState),
      add_client st data s = (some r, st2) →
      r.record_type = PyVal.str "Client") := by
  constructor
  · intro st data s h
    unfold add_airline
    dsimp only
    rw [if_pos (by
      rw [Bool.not_eq_true', dmem_dset]
      simp [h])]
    show (Option.none, (⟨st.airlines, st.nextId + 1 - 1⟩ : AState)) = _
    rw [Int.add_sub_cancel]
  · intro st data s r st2 h
    obtain ⟨_, hfd, _⟩ := add_client_success h
    exact (client_from_dict_fields hfd).2

/-- C6 witness: the airline conjunct of C6 applied to a concrete add
without a `record_type` key. -/
theorem c6_witness :
    add_airline aState1 [("company_name", PyVal.str "NoTag Air")] true =
      (Option.none, aState1) :=
  c6_amended.1 aState1 [("company_name", PyVal.str "NoTag Air")] true
    (by rfl)

/-- C7: every record returned by a successful add on any of the three
managers reconstructs exactly from its own external mapping —
`from_dict (to_dict r) = ok r`, so `to_dict ∘ from_dict ∘ to_dict`
agrees with `to_dict` (the flight date survives its ISO string
form). -/
theorem c7_round_trip :
    (∀ (st : CState) (data : PyDict) (s : Bool) (r : ClientRecord)
        (st2 : CState),
      add_client st data s = (some r, st2) →
      ClientRecord.from_dict r.to_dict = .ok r) ∧
    (∀ (st : AState) (data : PyDict) (s : Bool) (r : AirlineRecord)
        (st2 : AState),
      add_airline st data s = (some r, st2) →
      AirlineRecord.from_dict r.to_dict = .ok r) ∧
    (∀ (cm : CState) (am : AState) (st : FState) (data : PyDict) (s : Bool)
        (f : FlightRecord) (st2 : FState),
      add_flight cm am st data s = (some f, st2) →
      FlightRecord.from_dict f.to_dict = .ok f) := by
  refine ⟨?_, ?_, ?_⟩
  · intro st data s r st2 h
    obtain ⟨_, hfd, _⟩ := add_client_success h
    exact client_from_to r (client_wf_of_from_dict hfd)
  · intro st data s r st2 h
    obtain ⟨_, hfd, _⟩ := add_airline_success h
    exact airline_from_to r (airline_wf_of_from_dict hfd)
  · intro cm am st data s f st2 h
    obtain ⟨_, hfd, _⟩ := add_flight_success h
    exact flight_from_to f (flight_wf_of_from_dict hfd)

/-- C7 witness: the client conjunct of C7 applied to a concrete
successful add. -/
theorem c7_witness :
    ClientRecord.from_dict clientA.to_dict = .ok clientA :=
  c7_round_trip.1 ⟨[], 1⟩ clientDataNoTag true clientA ⟨[clientA], 2⟩
    (by rfl)

theorem c3_add_part (cm : CState) (am : AState) (st : FState)
    (data : PyDict) (s : Bool)
    (h : (badClientRef cm (dget data "Client_ID") ||
      badAirlineRef am (dget data "Airline_ID")) = true) :
    add_flight cm am st data s = (Option.none, st) := by
  unfold add_flight
  dsimp only
  split
  · rfl
  · cases hcv : dget data "Client_ID" with
    | none => rfl
    | some cv =>
      cases cv with
      | int ci =>
        rw [hcv] at h
        cases hlk : (get_client_by_id cm ci).isNone with
        | true => simp [hlk]
        | false =>
          simp only [badClientRef, hlk, Bool.false_or] at h
          simp only [Option.getD_some, hlk, Bool.false_eq_true, if_false]
          cases hav : dget data "Airline_ID" with
          | none => rfl
          | some av =>
            cases av with
            | int ai =>
              rw [hav] at h
              simp only [badAirlineRef] at h
              simp [h]
            | none => rfl
            | str sv => rfl
      | none => rfl
      | str sv => rfl

theorem c3_update_part (cm : CState) (am : AState) (st : FState)
    (idd upd : PyDict) (s : Bool) (i : Nat) (f : FlightRecord)
    (hidx : find_flight_index st idd = some i)
    (hr : st.flights[i]? = some f)
    (hnd : (upd.map Prod.fst).Nodup)
    (h : (∃ v, dget upd "Client_ID" = some v ∧ v ≠ PyVal.int f.client_id ∧
          badClientRef cm (some v) = true) ∨
        (∃ v, dget upd "Airline_ID" = some v ∧ v ≠ PyVal.int f.airline_id ∧
          badAirlineRef am (some v) = true)) :
    update_flight cm am st idd upd s = (Option.none, st) := by
  obtain ⟨hlt, hget⟩ := List.getElem?_eq_some.mp hr
  unfold update_flight
  split
  · rename_i heq
    rw [hidx] at heq
  · rename_i i2 heq
    have hii : i2 = i := Option.some.inj (heq.symm.trans hidx)
    subst hii
    dsimp only
    rw [hget]
    cases hm : mergeFlight f.to_dict false upd with
    | mk merged changed =>
      have hcur_c : dget f.to_dict "Client_ID" =
          some (PyVal.int f.client_id) := rfl
      have hcur_a : dget f.to_dict "Airline_ID" =
          some (PyVal.int f.airline_id) := rfl
      rcases h with ⟨v, hv, hvne, hbad⟩ | ⟨v, hv, hvne, hbad⟩
      · have hnec : dget f.to_dict "Client_ID" ≠ some v := by
          rw [hcur_c]
          intro hc
          exact hvne (Option.some.inj hc).symm
        have hkey := mergeFlight_changed_val upd f.to_dict false hnd hv
          (by rfl) hnec
        rw [hm] at hkey
        obtain ⟨hmv, hch⟩ := hkey
        subst hch
        simp only [Bool.not_true, Bool.false_eq_true, if_false]
        rw [if_pos]
        simp only [Bool.and_eq_true, bne_iff_ne]
        refine ⟨⟨dmem_of_dget hv, ?_⟩, ?_⟩
        · rw [hv, hcur_c]
          intro hc
          exact hvne (Option.some.inj hc)
        · rw [hmv]
          cases v with
          | int n =>
            simp only [badClientRef] at hbad
            simp [Option.isNone_iff_eq_none.mp hbad]
          | none => rfl
          | str sv => rfl
      · have hnea : dget f.to_dict "Airline_ID" ≠ some v := by
          rw [hcur_a]
          intro hc
          exact hvne (Option.some.inj hc).symm
        have hkey := mergeFlight_changed_val upd f.to_dict false hnd hv
          (by rfl) hnea
        rw [hm] at hkey
        obtain ⟨hmv, hch⟩ := hkey
        subst hch
        simp only [Bool.not_true, Bool.false_eq_true, if_false]
        split
        · rfl
        · rw [if_pos]
          simp only [Bool.and_eq_true, bne_iff_ne]
          refine ⟨⟨dmem_of_dget hv, ?_⟩, ?_⟩
          · rw [hv, hcur_a]
            intro hc
            exact hvne (Option.some.inj hc)
          · rw [hmv]
            cases v with
            | int n =>
              simp only [badAirlineRef] at hbad
              simp [Option.isNone_iff_eq_none.mp hbad]
            | none => rfl
            | str sv => rfl

theorem airline_mkChecked_aid {rt cn aid : PyVal} {r : AirlineRecord}
    (h : AirlineRecord.mkChecked rt cn aid = .ok r) :
    r.airline_id = decodeAid aid := by
  cases rt with
  | str rts =>
    cases cn with
    | str cns =>
      simp only [AirlineRecord.mkChecked] at h
      split at h
      · exact Except.noConfusion h
      · split at h
        · exact Except.noConfusion h
        · cases aid with
          | none =>
            obtain rfl : _ = r := Except.ok.inj h
            rfl
          | int n =>
            obtain rfl : _ = r := Except.ok.inj h
            rfl
          | str sv => exact Except.noConfusion h
    | none =>
      simp only [AirlineRecord.mkChecked] at h
      split at h <;> exact Except.noConfusion h
    | int m =>
      simp only [AirlineRecord.mkChecked] at h
      split at h <;> exact Except.noConfusion h
  | none => exact Except.noConfusion h
  | int m => exact Except.noConfusion h

theorem airline_from_dict_aid {d : PyDict} {r : AirlineRecord}
    (h : AirlineRecord.from_dict d = .ok r) :
    r.airline_id = decodeAid ((dget d "airline_id").getD .none) := by
  rw [AirlineRecord.from_dict] at h
  split at h
  · exact airline_mkChecked_aid h
  · exact Except.noConfusion h

theorem c5_client_part (st : CState) (cid : Int) (info : PyDict) (s : Bool)
    (i : Nat) (r r2 : ClientRecord)
    (hidx : st.clients.findIdx? (fun c => c.client_id == PyVal.int cid) =
      some i)
    (hr : st.clients[i]? = some r)
    (htag : r.record_type = PyVal.str "Client")
    (hres : (update_client st cid info s).1 = some r2) :
    r2.client_id = r.client_id ∧ r2.record_type = r.record_type := by
  obtain ⟨hlt, hget⟩ := List.getElem?_eq_some.mp hr
  unfold update_client at hres
  split at hres
  · rename_i heq
    rw [hidx] at heq
    exact Option.noConfusion heq
  · rename_i i2 heq
    have hii : i2 = i := Option.some.inj (heq.symm.trans hidx)
    subst hii
    dsimp only at hres
    rw [hget] at hres
    cases hm : mergeClient r.to_dict false info with
    | mk merged changed =>
      rw [hm] at hres
      cases changed with
      | false =>
        obtain rfl : r = r2 := Option.some.inj hres
        exact ⟨rfl, rfl⟩
      | true =>
        simp only [Bool.not_true, Bool.false_eq_true, if_false] at hres
        cases hfd : ClientRecord.from_dict merged with
        | error e => rw [hfd] at hres; exact Option.noConfusion hres
        | ok updated =>
          rw [hfd] at hres
          cases s with
          | true =>
            obtain rfl : updated = r2 := Option.some.inj hres
            obtain ⟨hid, htag2⟩ := client_from_dict_fields hfd
            constructor
            · rw [hid]
              have hp : dget merged "client_id" = dget r.to_dict "client_id" := by
                have := mergeClient_protected "client_id" info (by rfl) r.to_dict false
                rw [hm] at this
                exact this
              rw [hp]
              rfl
            · rw [htag2, htag]
          | false =>
            cases hbk : ClientRecord.from_dict r.to_dict with
            | ok restored =>
              rw [hbk] at hres
              exact Option.noConfusion hres
            | error e =>
              rw [hbk] at hres
              exact Option.noConfusion hres

theorem c5_airline_part (st : AState) (aid : Int) (info : PyDict) (s : Bool)
    (i : Nat) (r r2 : AirlineRecord)
    (hidx : st.airlines.findIdx? (fun a => a.airline_id == some aid) =
      some i)
    (hr : st.airlines[i]? = some r)
    (hres : (update_airline st aid info s).1 = some r2) :
    r2.airline_id = r.airline_id := by
  obtain ⟨hlt, hget⟩ := List.getElem?_eq_some.mp hr
  unfold update_airline at hres
  split at hres
  · rename_i heq
    rw [hidx] at heq
    exact Option.noConfusion heq
  · rename_i i2 heq
    have hii : i2 = i := Option.some.inj (heq.symm.trans hidx)
    subst hii
    dsimp only at hres
    rw [hget] at hres
    cases hm : mergeAirline r.to_dict false info with
    | mk merged changed =>
      rw [hm] at hres
      cases changed with
      | false =>
        obtain rfl : r = r2 := Option.some.inj hres
        rfl
      | true =>
        simp only [Bool.not_true, Bool.false_eq_true, if_false] at hres
        cases hfd : AirlineRecord.from_dict merged with
        | error e => rw [hfd] at hres; exact Option.noConfusion hres
        | ok updated =>
          rw [hfd] at hres
          cases s with
          | true =>
            obtain rfl : updated = r2 := Option.some.inj hres
            have hid := airline_from_dict_aid hfd
            have hp : dget merged "airline_id" = dget r.to_dict "airline_id" := by
              have := mergeAirline_protected "airline_id" info rfl r.to_dict false
              rw [hm] at this
              exact this
            rw [hid, hp]
            show decodeAid ((dget r.to_dict "airline_id").getD .none) =
              r.airline_id
            cases hra : r.airline_id with
            | none =>
              have : dget r.to_dict "airline_id" = some PyVal.none := by
                show dget r.to_dict "airline_id" = _
                unfold AirlineRecord.to_dict dget
                rw [hra]
                rfl
              rw [this]
              rfl
            | some n =>
              have : dget r.to_dict "airline_id" = some (PyVal.int n) := by
                unfold AirlineRecord.to_dict dget
                rw [hra]
                rfl
              rw [this]
              rfl
          | false =>
            cases hbk : AirlineRecord.from_dict r.to_dict with
            | ok restored =>
              rw [hbk] at hres
              exact Option.noConfusion hres
            | error e =>
              rw [hbk] at hres
              exact Option.noConfusion hres

theorem load_clients_lines_spec :
    ∀ (lines : List LoadLine) (acc : List ClientRecord) (h : Int),
      LoadLine.jsonNonObject ∉ lines →
      (load_clients_lines acc h lines).1 =
        acc ++ lines.filterMap clientLineParse
  | [], acc, h, _ => by simp [load_clients_lines]
  | line :: rest, acc, h, hni => by
    have hrest : LoadLine.jsonNonObject ∉ rest :=
      fun hm => hni (List.mem_cons_of_mem _ hm)
    cases line with
    | blank =>
      rw [load_clients_lines, load_clients_lines_spec rest acc h hrest]
      rfl
    | badJson =>
      rw [load_clients_lines, load_clients_lines_spec rest acc h hrest]
      rfl
    | jsonNonObject => exact absurd (List.mem_cons_self _ _) hni
    | json d =>
      rw [load_clients_lines]
      by_cases htag : (dget d "record_type" == some (PyVal.str "Client")) =
        true
      · rw [if_pos htag]
        cases hfd : ClientRecord.from_dict d with
        | ok c =>
          rw [load_clients_lines_spec rest (acc ++ [c]) _ hrest]
          simp [List.filterMap_cons, clientLineParse, htag, hfd,
            Except.toOption]
        | error e =>
          rw [load_clients_lines_spec rest acc h hrest]
          simp [List.filterMap_cons, clientLineParse, htag, hfd,
            Except.toOption]
      · rw [if_neg htag, load_clients_lines_spec rest acc h hrest]
        simp only [Bool.not_eq_true] at htag
        simp [List.filterMap_cons, clientLineParse, htag]

theorem load_airlines_lines_spec :
    ∀ (lines : List LoadLine) (acc : List AirlineRecord) (h : Int),
      LoadLine.jsonNonObject ∉ lines →
      (load_airlines_lines acc h lines).1 =
        acc ++ lines.filterMap airlineLineParse
  | [], acc, h, _ => by simp [load_airlines_lines]
  | line :: rest, acc, h, hni => by
    have hrest : LoadLine.jsonNonObject ∉ rest :=
      fun hm => hni (List.mem_cons_of_mem _ hm)
    cases line with
    | blank =>
      rw [load_airlines_lines, load_airlines_lines_spec rest acc h hrest]
      rfl
    | badJson =>
      rw [load_airlines_lines, load_airlines_lines_spec rest acc h hrest]
      rfl
    | jsonNonObject => exact absurd (List.mem_cons_self _ _) hni
    | json d =>
      rw [load_airlines_lines]
      by_cases htag : (dget d "record_type" == some (PyVal.str "Airline")) =
        true
      · rw [if_pos htag]
        cases hfd : AirlineRecord.from_dict d with
        | ok a =>
          dsimp only
          rw [load_airlines_lines_spec rest (acc ++ [a]) _ hrest]
          simp [List.filterMap_cons, airlineLineParse, htag, hfd,
            Except.toOption]
        | error e =>
          dsimp only
          rw [load_airlines_lines_spec rest acc h hrest]
          simp [List.filterMap_cons, airlineLineParse, htag, hfd,
            Except.toOption]
      · rw [if_neg htag, load_airlines_lines_spec rest acc h hrest]
        simp only [Bool.not_eq_true] at htag
        simp [List.filterMap_cons, airlineLineParse, htag]

theorem load_flights_lines_spec :
    ∀ (lines : List LoadLine) (acc : List FlightRecord),
      LoadLine.jsonNonObject ∉ lines →
      load_flights_lines acc lines = acc ++ lines.filterMap flightLineParse
  | [], acc, _ => by simp [load_flights_lines]
  | line :: rest, acc, hni => by
    have hrest : LoadLine.jsonNonObject ∉ rest :=
      fun hm => hni (List.mem_cons_of_mem _ hm)
    cases line with
    | blank =>
      rw [load_flights_lines, load_flights_lines_spec rest acc hrest]
      rfl
    | badJson =>
      rw [load_flights_lines, load_flights_lines_spec rest acc hrest]
      rfl
    | jsonNonObject => exact absurd (List.mem_cons_self _ _) hni
    | json d =>
      rw [load_flights_lines]
      by_cases htag : (dget d "record_type" == some (PyVal.str "Flight")) =
        true
      · rw [if_pos htag]
        cases hfd : FlightRecord.from_dict d with
        | ok f =>
          dsimp only
          rw [load_flights_lines_spec rest (acc ++ [f]) hrest]
          simp [List.filterMap_cons, flightLineParse, htag, hfd,
            Except.toOption]
        | error e =>
          dsimp only
          rw [load_flights_lines_spec rest acc hrest]
          simp [List.filterMap_cons, flightLineParse, htag, hfd,
            Except.toOption]
      · rw [if_neg htag, load_flights_lines_spec rest acc hrest]
        simp only [Bool.not_eq_true] at htag
        simp [List.filterMap_cons, flightLineParse, htag]

theorem load_clients_lines_abort :
    ∀ (pre post : List LoadLine) (acc : List ClientRecord) (h : Int),
      load_clients_lines acc h (pre ++ LoadLine.jsonNonObject :: post) =
        load_clients_lines acc h pre
  | [], post, acc, h => rfl
  | line :: pre, post, acc, h => by
    cases line with
    | blank =>
      simp only [List.cons_append, load_clients_lines]
      exact load_clients_lines_abort pre post acc h
    | badJson =>
      simp only [List.cons_append, load_clients_lines]
      exact load_clients_lines_abort pre post acc h
    | jsonNonObject => rfl
    | json d =>
      simp only [List.cons_append, load_clients_lines]
      by_cases htag : (dget d "record_type" == some (PyVal.str "Client")) =
        true
      · rw [if_pos htag, if_pos htag]
        cases hfd : ClientRecord.from_dict d with
        | ok c =>
          dsimp only
          exact load_clients_lines_abort pre post (acc ++ [c]) _
        | error e =>
          dsimp only
          exact load_clients_lines_abort pre post acc h
      · rw [if_neg htag, if_neg htag]
        exact load_clients_lines_abort pre post acc h

theorem load_airlines_lines_abort :
    ∀ (pre post : List LoadLine) (acc : List AirlineRecord) (h : Int),
      load_airlines_lines acc h (pre ++ LoadLine.jsonNonObject :: post) =
        load_airlines_lines acc h pre
  | [], post, acc, h => rfl
  | line :: pre, post, acc, h => by
    cases line with
    | blank =>
      simp only [List.cons_append, load_airlines_lines]
      exact load_airlines_lines_abort pre post acc h
    | badJson =>
      simp only [List.cons_append, load_airlines_lines]
      exact load_airlines_lines_abort pre post acc h
    | jsonNonObject => rfl
    | json d =>
      simp only [List.cons_append, load_airlines_lines]
      by_cases htag : (dget d "record_type" == some (PyVal.str "Airline")) =
        true
      · rw [if_pos htag, if_pos htag]
        cases hfd : AirlineRecord.from_dict d with
        | ok a =>
          dsimp only
          exact load_airlines_lines_abort pre post (acc ++ [a]) _
        | error e =>
          dsimp only
          exact load_airlines_lines_abort pre post acc h
      · rw [if_neg htag, if_neg htag]
        exact load_airlines_lines_abort pre post acc h

theorem load_flights_lines_abort :
    ∀ (pre post : List LoadLine) (acc : List FlightRecord),
      load_flights_lines acc (pre ++ LoadLine.jsonNonObject :: post) =
        load_flights_lines acc pre
  | [], post, acc => rfl
  | line :: pre, post, acc => by
    cases line with
    | blank =>
      simp only [List.cons_append, load_flights_lines]
      exact load_flights_lines_abort pre post acc
    | badJson =>
      simp only [List.cons_append, load_flights_lines]
      exact load_flights_lines_abort pre post acc
    | jsonNonObject => rfl
    | json d =>
      simp only [List.cons_append, load_flights_lines]
      by_cases htag : (dget d "record_type" == some (PyVal.str "Flight")) =
        true
      · rw [if_pos htag, if_pos htag]
        cases hfd : FlightRecord.from_dict d with
        | ok f =>
          dsimp only
          exact load_flights_lines_abort pre post (acc ++ [f])
        | error e =>
          dsimp only
          exact load_flights_lines_abort pre post acc
      · rw [if_neg htag, if_neg htag]
        exact load_flights_lines_abort pre post acc

theorem clientMatchLoop_eq_all :
    ∀ (crit : PyDict) (r : ClientRecord),
      clientMatchLoop r crit =
        crit.all (fun kv => clientCriterionMatches r kv.1 kv.2)
  | [], r => by rfl
  | (k, sv) :: rest, r => by
    rw [clientMatchLoop, List.all_cons]
    cases hga : r.getattr k with
    | none => simp [clientCriterionMatches, hga]
    | some fv =>
      cases sv <;> cases fv <;>
        simp only [clientCriterionMatches, hga,
          clientMatchLoop_eq_all rest r] <;>
        first
        | rfl
        | (split <;> simp_all)

theorem c9_amended_eq (st : CState) (criteria : PyDict) :
    find_clients st criteria =
      if criteria.isEmpty then st.clients
      else st.clients.filter (fun r =>
        criteria.all (fun kv => clientCriterionMatches r kv.1 kv.2)) := by
  unfold find_clients
  split
  · rfl
  · congr 1
    funext r
    exact clientMatchLoop_eq_all criteria r

theorem flightLineParse_to_dict {g : FlightRecord} (hwf : g.wfStored = true) :
    flightLineParse (.json g.to_dict) =
      if g.record_type == "Flight" then some g else Option.none := by
  rw [flightLineParse]
  have hd : dget g.to_dict "record_type" = some (.str g.record_type) := rfl
  rw [hd]
  by_cases hc : g.record_type = "Flight"
  · rw [hc]
    rw [if_pos (by rfl), if_pos (by simp), flight_from_to g hwf]
    rfl
  · rw [if_neg ?hneg, if_neg ?hneg2]
    case hneg =>
      simp only [beq_iff_eq, Option.some.injEq, PyVal.str.injEq]
      exact fun hcc => hc hcc
    case hneg2 =>
      simp only [beq_iff_eq]
      exact hc

theorem load_save_flights :
    ∀ (fs : List FlightRecord), (∀ g ∈ fs, g.wfStored = true) →
      ((fs.map FlightRecord.to_dict).map LoadLine.json).filterMap
        flightLineParse =
        fs.filter (fun g => g.record_type == "Flight")
  | [], _ => rfl
  | g :: rest, h => by
    have ih := load_save_flights rest (fun x hx => h x (by simp [hx]))
    show List.filterMap flightLineParse
        (LoadLine.json g.to_dict ::
          (rest.map FlightRecord.to_dict).map LoadLine.json) = _
    rw [List.filterMap_cons, flightLineParse_to_dict (h g (by simp)),
      List.filter_cons]
    by_cases hc : (g.record_type == "Flight") = true
    · rw [if_pos hc, if_pos hc]
      dsimp only
      rw [ih]
    · rw [if_neg (by simp [hc]), if_neg (by simp [hc])]
      dsimp only
      rw [ih]

/-- C3: `add_flight` returns `none` and leaves the flight list
untouched whenever the client reference or the airline reference of
the input is not an integer or does not resolve in the respective
manager, and `update_flight` does the same whenever the update data
contains a reference differing from the stored one that is not an
integer or does not resolve (nothing is appended or replaced, so
nothing is persisted). -/
theorem c3_flight_references_validated :
    (∀ (cm : CState) (am : AState) (st : FState) (data : PyDict) (s : Bool),
      (badClientRef cm (dget data "Client_ID") ||
        badAirlineRef am (dget data "Airline_ID")) = true →
      add_flight cm am st data s = (Option.none, st)) ∧
    (∀ (cm : CState) (am : AState) (st : FState) (idd upd : PyDict)
        (s : Bool) (i : Nat) (f : FlightRecord),
      find_flight_index st idd = some i →
      st.flights[i]? = some f →
      (upd.map Prod.fst).Nodup →
      ((∃ v, dget upd "Client_ID" = some v ∧ v ≠ PyVal.int f.client_id ∧
          badClientRef cm (some v) = true) ∨
        (∃ v, dget upd "Airline_ID" = some v ∧ v ≠ PyVal.int f.airline_id ∧
          badAirlineRef am (some v) = true)) →
      update_flight cm am st idd upd s = (Option.none, st)) :=
  ⟨c3_add_part, c3_update_part⟩

/-- C3 witness: the add conjunct of C3 applied to the spec example
payload with the non-existent `Client_ID` 9999. -/
theorem c3_witness :
    add_flight cState1 aState1 fState1 flightDataBadClient true =
      (Option.none, fState1) :=
  c3_flight_references_validated.1 cState1 aState1 fState1
    flightDataBadClient true (by rfl)

/-- C4 (code bug): `find_flights` compares a `Date` criterion by plain
string equality with the stored ISO string, because `to_dict` has
already stringified the date and no attribute spells `date` — the
date-aware branch in the code is unreachable.  On a manager holding
one flight at 2024-01-15 10:00:00, the ten-character criterion
`2024-01-15` parses to exactly that flight date (so the claim says it
matches) yet returns no flight, the sixteen-character criterion
`2024-01-15T10:00` parses to the exact timestamp (the claim says a
full ISO match) yet returns no flight, and only the byte-identical
string matches; empty criteria return all flights. -/
theorem c4_date_criterion_is_string_compared :
    find_flights fState1 [("Date", PyVal.str "2024-01-15")] = [] ∧
    fromIso "2024-01-15" = some ⟨2024, 1, 15, 0, 0, 0⟩ ∧
    flightSample.flight_date.dateTriple =
      (⟨2024, 1, 15, 0, 0, 0⟩ : PyDateTime).dateTriple ∧
    find_flights fState1 [("Date", PyVal.str "2024-01-15T10:00")] = [] ∧
    fromIso "2024-01-15T10:00" = some flightSample.flight_date ∧
    find_flights fState1 [("Date", PyVal.str "2024-01-15T10:00:00")] =
      [flightSample] ∧
    find_flights fState1 [] = [flightSample] :=
  ⟨rfl, rfl, rfl, rfl, rfl, rfl, rfl⟩

/-- C5 counterexample: the claim says the record-kind tag survives
every update, but `AirlineManager.update_airline` does not protect
`record_type`: updating the stored `"Airline"` record with
`record_type = "Foo"` succeeds and returns a record tagged
`"Foo"`. -/
theorem c5_counterexample :
    (update_airline aState1 1 [("record_type", PyVal.str "Foo")] true).1 =
      some ⟨some 1, "Foo", "Acme Air"⟩ ∧
    airlineAcme.record_type = "Airline" :=
  ⟨rfl, rfl⟩

/-- C5 amended: `ClientManager.update_client` preserves both the ID
field and the record-kind tag of the updated record (given the stored
tag invariant); `AirlineManager.update_airline` preserves only the ID
field — its kind tag can be overwritten by the changes mapping. -/
theorem c5_update_preserves_id_and_tag :
    (∀ (st : CState) (cid : Int) (info : PyDict) (s : Bool) (i : Nat)
        (r r2 : ClientRecord),
      st.clients.findIdx? (fun c => c.client_id == PyVal.int cid) = some i →
      st.clients[i]? = some r →
      r.record_type = PyVal.str "Client" →
      (update_client st cid info s).1 = some r2 →
      r2.client_id = r.client_id ∧ r2.record_type = r.record_type) ∧
    (∀ (st : AState) (aid : Int) (info : PyDict) (s : Bool) (i : Nat)
        (r r2 : AirlineRecord),
      st.airlines.findIdx? (fun a => a.airline_id == some aid) = some i →
      st.airlines[i]? = some r →
      (update_airline st aid info s).1 = some r2 →
      r2.airline_id = r.airline_id) :=
  ⟨c5_client_part, c5_airline_part⟩

/-- C5 witness: the client conjunct of C5 applied to a concrete
update that tries to overwrite both protected keys. -/
theorem c5_witness :
    (update_client cState1 1 [("city", PyVal.str "Boston"),
      ("client_id", PyVal.int 99), ("record_type", PyVal.str "Foo")]
      true).1 = some
      ⟨.int 1, .str "Client", .str "Alice", .str "1 Main St", .str "",
       .str "", .str "Boston", .str "NY", .str "10001", .str "US",
       .str "555-0100"⟩ ∧
    (PyVal.int 1 = clientAlice.client_id ∧
      PyVal.str "Client" = clientAlice.record_type) := by
  constructor
  · rfl
  · have h := c5_update_preserves_id_and_tag.1 cState1 1
      [("city", PyVal.str "Boston"), ("client_id", PyVal.int 99),
       ("record_type", PyVal.str "Foo")] true 0 clientAlice
      ⟨.int 1, .str "Client", .str "Alice", .str "1 Main St", .str "",
       .str "", .str "Boston", .str "NY", .str "10001", .str "US",
       .str "555-0100"⟩ rfl rfl rfl (by rfl)
    exact h

/-- C8 counterexample: the claim says a bad line is always skipped and
loading never aborts, yielding exactly the records of the good lines.
But a line that is valid JSON without being a JSON object (modelled by
`LoadLine.jsonNonObject`, e.g. `42`) raises `AttributeError` on
`data.get`, which only the handler outside the line loop catches: the
remaining lines are dropped.  On the file good-line / `42` / good-line
the code loads one record where the claim requires the two records of
the two good lines. -/
theorem c8_counterexample :
    (load_clients_file (some [LoadLine.json goodClientDict,
      LoadLine.jsonNonObject, LoadLine.json goodClientDict])).clients =
      [clientA] ∧
    [LoadLine.json goodClientDict, LoadLine.jsonNonObject,
      LoadLine.json goodClientDict].filterMap clientLineParse =
      [clientA, clientA] :=
  ⟨rfl, rfl⟩

/-- C8 amended: for every backing-file content WITHOUT a
valid-JSON-non-object line, loading yields exactly the records of the
lines that are JSON objects carrying the manager record-kind tag and
passing record validation, in file order — blank lines, invalid JSON,
mismatched tags and failed validation are skipped and never abort
loading.  A valid-JSON-non-object line, however, aborts the loop (its
`AttributeError` is caught only outside): the records loaded before it
are kept and it and every later line are dropped.  A missing file
yields the empty state (counter 1 for clients and airlines) and one
well-formed plus one malformed (non-JSON) line load exactly the one
good record.  All three managers behave this way. -/
theorem c8_load_skip_and_abort :
    (∀ (lines : List LoadLine), LoadLine.jsonNonObject ∉ lines →
      (load_clients_file (some lines)).clients =
        lines.filterMap clientLineParse) ∧
    (∀ (lines : List LoadLine), LoadLine.jsonNonObject ∉ lines →
      (load_airlines_file (some lines)).airlines =
        lines.filterMap airlineLineParse) ∧
    (∀ (lines : List LoadLine), LoadLine.jsonNonObject ∉ lines →
      load_flights_file (some lines) = lines.filterMap flightLineParse) ∧
    (∀ (pre post : List LoadLine),
      load_clients_file (some (pre ++ LoadLine.jsonNonObject :: post)) =
        load_clients_file (some pre)) ∧
    (∀ (pre post : List LoadLine),
      load_airlines_file (some (pre ++ LoadLine.jsonNonObject :: post)) =
        load_airlines_file (some pre)) ∧
    (∀ (pre post : List LoadLine),
      load_flights_file (some (pre ++ LoadLine.jsonNonObject :: post)) =
        load_flights_file (some pre)) ∧
    load_clients_file Option.none = ⟨[], 1⟩ ∧
    load_airlines_file Option.none = ⟨[], 1⟩ ∧
    load_flights_file Option.none = [] ∧
    (load_clients_file
      (some [LoadLine.json goodClientDict, LoadLine.badJson])).clients =
      [clientA] := by
  refine ⟨?_, ?_, ?_, ?_, ?_, ?_, rfl, rfl, rfl, by rfl⟩
  · intro lines hni
    show (load_clients_lines [] 0 lines).1 = _
    rw [load_clients_lines_spec lines [] 0 hni]
    rfl
  · intro lines hni
    show (load_airlines_lines [] 0 lines).1 = _
    rw [load_airlines_lines_spec lines [] 0 hni]
    rfl
  · intro lines hni
    show load_flights_lines [] lines = _
    rw [load_flights_lines_spec lines [] hni]
    rfl
  · intro pre post
    show (⟨_, _⟩ : CState) = _
    rw [load_clients_lines_abort pre post [] 0]
    rfl
  · intro pre post
    show (⟨_, _⟩ : AState) = _
    rw [load_airlines_lines_abort pre post [] 0]
    rfl
  · intro pre post
    show load_flights_lines [] _ = load_flights_lines [] pre
    rw [load_flights_lines_abort pre post []]

/-- C8 witness: the client skip conjunct of C8 applied to the good
line plus malformed line file, loading exactly the one good
record. -/
theorem c8_witness :
    (load_clients_file
      (some [LoadLine.json goodClientDict, LoadLine.badJson])).clients =
      [LoadLine.json goodClientDict,
        LoadLine.badJson].filterMap clientLineParse ∧
    [LoadLine.json goodClientDict,
      LoadLine.badJson].filterMap clientLineParse = [clientA] :=
  ⟨c8_load_skip_and_abort.1 [LoadLine.json goodClientDict, LoadLine.badJson]
    (by simp), by rfl⟩

/-- C9 counterexample: the claim predicate (stated in
`specFindClients` from the claim text) places no constraint on a
string field searched with a non-string value, so it matches, but the
code rejects such a record: on the one-client manager the criterion
`name = 5` returns nothing while the claim returns the client. -/
theorem c9_counterexample :
    find_clients cState1 [("name", PyVal.int 5)] = [] ∧
    specFindClients cState1 [("name", PyVal.int 5)] = [clientAlice] :=
  ⟨rfl, rfl⟩

/-- C9 amended: `find_clients` returns all records on empty criteria,
and otherwise exactly the records matching every criterion, where one
criterion matches iff the record has the field and: a `None` search
value matches only a `None` field value; a `None` field value matches
nothing else; two strings compare by case-insensitive containment; a
string field never matches a non-string search value; a non-string
field matches by equality after coercing the search value to its type,
a failed coercion meaning no match. -/
theorem c9_find_clients_semantics (st : CState) (criteria : PyDict) :
    find_clients st criteria =
      if criteria.isEmpty then st.clients
      else st.clients.filter (fun r =>
        criteria.all (fun kv => clientCriterionMatches r kv.1 kv.2)) :=
  c9_amended_eq st criteria

/-- C9 witness: the spec example — searching `city = "new"` matches
the stored `"New York"` client — evaluated concretely and through the
C9 equation. -/
theorem c9_witness :
    find_clients cState1 [("city", PyVal.str "new")] = [clientAlice] ∧
    find_clients cState1 [("city", PyVal.str "new")] =
      if ([("city", PyVal.str "new")] : PyDict).isEmpty then cState1.clients
      else cState1.clients.filter (fun r =>
        [("city", PyVal.str "new")].all
          (fun kv => clientCriterionMatches r kv.1 kv.2)) :=
  ⟨rfl, c9_find_clients_semantics cState1 [("city", PyVal.str "new")]⟩

/-- C10: a flight whose tag is not exactly `"Flight"` (as
`add_flight` accepts with only a warning, and as the constructor
default `"flight"` produces) is written to the file by a successful
save, but a subsequent load keeps exactly the persisted records tagged
`"Flight"`, so save followed by load is not the identity on such
states. -/
theorem c10_save_then_load_not_identity :
    ∀ (fs : List FlightRecord) (f : FlightRecord),
      (∀ g ∈ fs, g.wfStored = true) → f ∈ fs → f.record_type ≠ "Flight" →
      FlightRecord.to_dict f ∈ save_flights fs ∧
      load_flights_file (some ((save_flights fs).map LoadLine.json)) =
        fs.filter (fun g => g.record_type == "Flight") ∧
      load_flights_file (some ((save_flights fs).map LoadLine.json)) ≠
        fs := by
  intro fs f hwf hmem htag
  have hload : load_flights_file (some ((save_flights fs).map
      LoadLine.json)) = fs.filter (fun g => g.record_type == "Flight") := by
    show load_flights_lines [] _ = _
    rw [load_flights_lines_spec _ [] (by simp [save_flights])]
    show ((fs.map FlightRecord.to_dict).map LoadLine.json).filterMap
      flightLineParse = _
    exact load_save_flights fs hwf
  refine ⟨List.mem_map_of_mem FlightRecord.to_dict hmem, hload, ?_⟩
  rw [hload]
  intro heq
  have := (List.filter_eq_self.mp heq) f hmem
  simp only [beq_iff_eq] at this
  exact htag this

/-- C10 witness: C10 applied to the one-flight state tagged
`"flight"`. -/
theorem c10_witness :
    FlightRecord.to_dict flightLower ∈ save_flights [flightLower] ∧
    load_flights_file
      (some ((save_flights [flightLower]).map LoadLine.json)) = [] ∧
    load_flights_file
      (some ((save_flights [flightLower]).map LoadLine.json)) ≠
      [flightLower] := by
  have h := c10_save_then_load_not_identity [flightLower] flightLower
    (by intro g hg; rw [List.mem_singleton.mp hg]; rfl)
    (by simp) (by intro hc; exact absurd hc (by decide))
  refine ⟨h.1, ?_, ?_⟩
  · rw [h.2.1]
    rfl
  · exact h.2.2
